import Mathlib

/-!
Verification of the lolrepl PostgreSQL logical-replication client.

This file gives a shallow embedding, in Lean 4, of the protocol framer,
authentication flow, error-message renderer, value decoders and the
subscriber streaming loop of the repository (src/conn.rs, src/error.rs,
src/value.rs, src/sub.rs), and proves or refutes the testable properties
stated in the specification.

Modelling conventions:
- wire bytes are `Nat` values below 256; byte buffers are `List Nat`;
- Rust machine integers are `Nat`/`Int` with explicit two's-complement
  wrapping (`% 2^32`, `% 2^64`) at the points where the Rust code casts;
- fallible Rust code returns the `PRes` type below; a Rust panic (index
  out of bounds, debug-mode integer underflow) is the `PRes.panic` value;
- the byte-stream transport is a finite `List Nat`; `Read::read_exact`
  fails with an `UnexpectedEof` I/O error when the list is exhausted,
  matching its documented contract.
-/

namespace Lolrepl

/-- The `std::io::ErrorKind` values the code distinguishes. -/
inductive IoKind where
  | unexpectedEof
  | wouldBlock
  | timedOut
deriving DecidableEq

/-- Embedding of the error enum of src/error.rs.  Variants that carry a
structured source error in Rust (`ParseInt`, `ParseFloat`, `ParseDateTime`,
`HexDecode`, `Utf8`) are modelled without a payload; variants carrying a
`String` keep it. -/
inductive Err where
  | ioError : IoKind → Err
  | unexpectedEndOfData : String → Err
  | emptyWalData : Err
  | emptyCopyData : Err
  | unterminatedString : Err
  | invalidAuthRequest : Err
  | invalidMd5AuthRequest : Err
  | authentication : String → Err
  | replicationCommandFailed : String → Err
  | replicationCopyModeNotStarted : Err
  | replicationProtocolViolation : String → Err
  | serverStartupFailure : String → Err
  | utf8 : Err
  | hexDecode : Err
  | parseIntErr : Err
  | parseFloatErr : Err
  | parseDateTime : Err
  | parseValue : String → Err
deriving DecidableEq

/-- Result of running a piece of the Rust code: normal return, `Err`
return, or a Rust panic/abort.  `unmodelled` marks the result of a code
path whose semantics lies outside this embedding (IEEE-754 float parsing
and formatting, and jiff's textual strptime formats other than the
timestamptz one); no theorem in this file concludes anything from an
`unmodelled` value. -/
inductive PRes (α : Type) where
  | ok : α → PRes α
  | err : Err → PRes α
  | panic : PRes α
  | unmodelled : String → PRes α
deriving DecidableEq

/-- Sequencing of fallible computations, propagating errors and panics. -/
def PRes.bind {α β : Type} : PRes α → (α → PRes β) → PRes β
  | .ok a, f => f a
  | .err e, _ => .err e
  | .panic, _ => .panic
  | .unmodelled w, _ => .unmodelled w

/-- True exactly on a normal return. -/
def PRes.isOk {α : Type} : PRes α → Bool
  | .ok _ => true
  | _ => false

/-- Big-endian 4-byte encoding of the low 32 bits of a natural number,
modelling `i32::to_be_bytes` applied to the two's-complement bit pattern. -/
def toBe32 (n : Nat) : List Nat :=
  [n / 2 ^ 24 % 256, n / 2 ^ 16 % 256, n / 2 ^ 8 % 256, n % 256]

/-- Big-endian decoding of 4 bytes, modelling `i32::from_be_bytes` at the
bit-pattern level. -/
def fromBe32 (b0 b1 b2 b3 : Nat) : Nat :=
  ((b0 * 256 + b1) * 256 + b2) * 256 + b3

/-- Reinterpret a 32-bit pattern as a signed `i32` value. -/
def i32OfBits (n : Nat) : Int :=
  if n < 2 ^ 31 then (n : Int) else (n : Int) - 2 ^ 32

/-- Two's-complement bit pattern of an `i32` value. -/
def i32ToBits (v : Int) : Nat :=
  (v % 2 ^ 32).toNat

/-- Wrapping conversion of an unbounded integer into the `i32` value range,
modelling Rust `as i32` casts (which truncate) and release-mode wrapping
arithmetic. -/
def i32Wrap (v : Int) : Int :=
  (v + 2 ^ 31) % 2 ^ 32 - 2 ^ 31

/-- The `as usize` cast of an `i32` value (sign-extending two's complement
into 64 bits). -/
def usizeOfI32 (v : Int) : Nat :=
  (v % 2 ^ 64).toNat

/-- Embedding of `PgMessage` from src/conn.rs: a message type byte and a
payload. -/
structure PgMessage where
  messageType : Nat
  data : List Nat
deriving DecidableEq

/-- Embedding of `Connection::read_message` (src/conn.rs lines 294-317)
over a finite byte stream.  Reads a 5-byte header, interprets the length
field as a big-endian `i32` cast to `usize`, reads `length - 4` payload
bytes, and unwraps a CopyData envelope when `copyData` is set.  A stream
that is exhausted mid-read yields the `UnexpectedEof` I/O error produced
by `Read::read_exact`.  A decoded length below 4 makes `length - 4`
underflow `usize` (a debug-mode panic; in release the wrapped value makes
the `vec![0u8; data_length]` allocation abort), modelled as `.panic`. -/
def readMessage (copyData : Bool) (s : List Nat) : PRes (PgMessage × List Nat) :=
  match s with
  | t :: b0 :: b1 :: b2 :: b3 :: rest =>
    let length : Nat := usizeOfI32 (i32OfBits (fromBe32 b0 b1 b2 b3))
    if length < 4 then .panic
    else
      let dataLength := length - 4
      if dataLength ≤ rest.length then
        let data := rest.take dataLength
        let rest2 := rest.drop dataLength
        if copyData = false ∨ t ≠ 100 ∨ data = [] then
          .ok (⟨t, data⟩, rest2)
        else
          match data with
          | inner :: tail => .ok (⟨inner, tail⟩, rest2)
          | [] => .ok (⟨t, data⟩, rest2)
      else .err (.ioError .unexpectedEof)
  | _ => .err (.ioError .unexpectedEof)

/-- Embedding of `Connection::write_message` (src/conn.rs lines 333-365):
the byte sequence written to the stream.  The length is computed as
`(data.len() + 4) as i32`, incremented by one in copy mode; in copy mode
the frame is wrapped in a CopyData (`d` = 100) envelope carrying the inner
type byte. -/
def writeMessage (messageType : Nat) (data : List Nat) (copyData : Bool) : List Nat :=
  let length : Int := i32Wrap (data.length + 4)
  let length : Int := if copyData then i32Wrap (length + 1) else length
  (if copyData then 100 else messageType) ::
    (toBe32 (i32ToBits length) ++ (if copyData then [messageType] else []) ++ data)

theorem i32Wrap_eq_self (v : Int) (h1 : -2 ^ 31 ≤ v) (h2 : v < 2 ^ 31) :
    i32Wrap v = v := by
  unfold i32Wrap
  omega

theorem i32ToBits_ofNat (n : Nat) (h : n < 2 ^ 32) : i32ToBits (n : Int) = n := by
  unfold i32ToBits
  omega

theorem be32_decode_encode (n : Nat) (h : n < 2 ^ 32) :
    fromBe32 (n / 2 ^ 24 % 256) (n / 2 ^ 16 % 256) (n / 2 ^ 8 % 256) (n % 256) = n := by
  unfold fromBe32
  omega

theorem usizeOfI32_i32OfBits_small (n : Nat) (h : n < 2 ^ 31) :
    usizeOfI32 (i32OfBits n) = n := by
  unfold usizeOfI32 i32OfBits
  simp only [if_pos (by exact_mod_cast h : (n : Nat) < 2 ^ 31)]
  omega

/-- Helper: a frame encoded by `writeMessage` whose length fits in `i32`
is decoded back exactly by `readMessage` in the same copy mode. -/
theorem readMessage_of_writeMessage (t : Nat) (d : List Nat) (copy : Bool)
    (rest : List Nat) (ht : t < 256)
    (hlen : d.length + 4 + (if copy then 1 else 0) < 2 ^ 31) :
    readMessage copy (writeMessage t d copy ++ rest) = .ok (⟨t, d⟩, rest) := by
  cases copy with
  | false =>
    simp only [if_neg Bool.false_ne_true] at hlen ⊢
    have hw : i32Wrap ((d.length : Int) + 4) = ((d.length + 4 : Nat) : Int) := by
      rw [i32Wrap_eq_self] <;> omega
    simp only [writeMessage, Bool.false_eq_true, if_false, hw]
    rw [i32ToBits_ofNat _ (by omega)]
    simp only [toBe32, List.cons_append, List.nil_append, List.append_assoc, readMessage]
    rw [be32_decode_encode _ (by omega), usizeOfI32_i32OfBits_small _ (by omega)]
    rw [if_neg (by omega)]
    have hle : d.length + 4 - 4 ≤ (d ++ rest).length := by
      simp only [List.length_append]; omega
    rw [if_pos hle]
    have htk : d.length + 4 - 4 = d.length := by omega
    rw [htk, List.take_left, List.drop_left]
    simp
  | true =>
    norm_num at hlen
    have hw : i32Wrap ((d.length : Int) + 4) = ((d.length : Int) + 4) := by
      rw [i32Wrap_eq_self] <;> omega
    have hw2 : i32Wrap ((d.length : Int) + 4 + 1) = ((d.length + 5 : Nat) : Int) := by
      rw [i32Wrap_eq_self] <;> push_cast <;> omega
    simp only [writeMessage, if_pos rfl, hw, hw2]
    norm_num
    have hb : i32ToBits ((d.length : Int) + 5) = d.length + 5 := by
      unfold i32ToBits; omega
    rw [hb]
    simp only [toBe32, List.cons_append, List.nil_append, List.append_assoc,
      List.singleton_append, readMessage]
    rw [be32_decode_encode _ (by omega), usizeOfI32_i32OfBits_small _ (by omega)]
    rw [if_neg (by omega)]
    have hle : d.length + 5 - 4 ≤ (t :: (d ++ rest)).length := by
      simp only [List.length_cons, List.length_append]; omega
    rw [if_pos hle]
    have htk : d.length + 5 - 4 = (t :: d).length := by
      simp only [List.length_cons]; omega
    have hsplit : t :: (d ++ rest) = (t :: d) ++ rest := by simp
    rw [htk, hsplit, List.take_left, List.drop_left]
    have hcond : ¬(true = false ∨ (100 : Nat) ≠ 100 ∨ t :: d = []) := by
      simp
    rw [if_neg hcond]

/-- True on any `Error` value at all (used to state that a call fails). -/
def PRes.isErr {α : Type} : PRes α → Bool
  | .err _ => true
  | _ => false

/-- Strict UTF-8 decoding of a byte list, modelling `std::str::from_utf8`:
rejects stray continuation bytes, overlong encodings, surrogate code
points and code points above 0x10FFFF. -/
def utf8Decode : List Nat → Option (List Char)
  | [] => some []
  | b :: rest =>
    if b < 0x80 then
      (utf8Decode rest).map (fun cs => Char.ofNat b :: cs)
    else if b < 0xC2 then none
    else if b < 0xE0 then
      match rest with
      | b1 :: rest1 =>
        if 0x80 ≤ b1 ∧ b1 < 0xC0 then
          (utf8Decode rest1).map (fun cs => Char.ofNat ((b - 0xC0) * 64 + (b1 - 0x80)) :: cs)
        else none
      | [] => none
    else if b < 0xF0 then
      match rest with
      | b1 :: b2 :: rest2 =>
        if (0x80 ≤ b1 ∧ b1 < 0xC0) ∧ (0x80 ≤ b2 ∧ b2 < 0xC0) ∧
            (b = 0xE0 → 0xA0 ≤ b1) ∧ (b = 0xED → b1 < 0xA0) then
          (utf8Decode rest2).map
            (fun cs => Char.ofNat ((b - 0xE0) * 4096 + (b1 - 0x80) * 64 + (b2 - 0x80)) :: cs)
        else none
      | _ => none
    else if b < 0xF5 then
      match rest with
      | b1 :: b2 :: b3 :: rest3 =>
        if (0x80 ≤ b1 ∧ b1 < 0xC0) ∧ (0x80 ≤ b2 ∧ b2 < 0xC0) ∧ (0x80 ≤ b3 ∧ b3 < 0xC0) ∧
            (b = 0xF0 → 0x90 ≤ b1) ∧ (b = 0xF4 → b1 < 0x90) then
          (utf8Decode rest3).map
            (fun cs => Char.ofNat ((b - 0xF0) * 262144 + (b1 - 0x80) * 4096 +
              (b2 - 0x80) * 64 + (b3 - 0x80)) :: cs)
        else none
      | _ => none
    else none

/-- Shared field loop of `Connection::parse_error_message` (src/conn.rs
lines 196-225) and `parse_pg_error_message` (src/sub.rs lines 31-60): walk
`(field-code byte, NUL-terminated value)` pairs until a 0 field code or the
end of the payload; a decodable `M` (77) field overwrites the accumulated
message, a decodable `S` (83) field prefixes the accumulated message with
`"severity: "`, every other field (and any invalid-UTF-8 field) is
skipped. -/
def parseErrorFieldsAux (fuel : Nat) (data : List Nat) (acc : List Char) : List Char :=
  match fuel, data with
  | 0, _ => acc
  | _ + 1, [] => acc
  | fuel + 1, fieldType :: rest =>
    if fieldType = 0 then acc
    else
      let fieldValue := rest.takeWhile (fun b => b != 0)
      let rest2 := (rest.dropWhile (fun b => b != 0)).drop 1
      let acc2 :=
        match utf8Decode fieldValue with
        | some value =>
          if fieldType = 77 then value
          else if fieldType = 83 then value ++ ':' :: ' ' :: acc
          else acc
        | none => acc
      parseErrorFieldsAux fuel rest2 acc2

/-- The fuel argument of `parseErrorFieldsAux` only bounds the recursion
depth: each iteration consumes at least the field-type byte, so the depth
never exceeds the payload length and the fuel below is never exhausted. -/
def parseErrorFields (data : List Nat) (acc : List Char) : List Char :=
  parseErrorFieldsAux (data.length + 1) data acc

/-- Embedding of `Connection::parse_error_message` / `parse_pg_error_message`
(identical code in src/conn.rs and src/sub.rs): render an ErrorResponse or
NoticeResponse payload to a message string, starting from the empty
accumulated message. -/
def parseErrorMessage (data : List Nat) : String :=
  String.mk (parseErrorFields data [])

example : parseErrorMessage [77, 98, 111, 111, 109, 0, 83, 69, 82, 82, 79, 82, 0, 0] =
    "ERROR: boom" := by decide

example : parseErrorMessage [83, 69, 82, 82, 79, 82, 0, 77, 98, 111, 111, 109, 0, 0] =
    "boom" := by decide

theorem parseErrorFieldsAux_fuel_eq (f1 : Nat) :
    ∀ f2 data acc, data.length < f1 → data.length < f2 →
      parseErrorFieldsAux f1 data acc = parseErrorFieldsAux f2 data acc := by
  induction f1 with
  | zero => intro f2 data acc h1 _; omega
  | succ k ih =>
    intro f2 data acc h1 h2
    cases data with
    | nil =>
      cases f2 with
      | zero => omega
      | succ f2 => rfl
    | cons fieldType rest =>
      cases f2 with
      | zero => omega
      | succ f2 =>
        simp only [parseErrorFieldsAux]
        by_cases hft : fieldType = 0
        · rw [if_pos hft, if_pos hft]
        · rw [if_neg hft, if_neg hft]
          apply ih
          all_goals
            have hs := (List.dropWhile_sublist (p := fun b => (b != 0)) (l := rest)).length_le
            simp only [List.length_drop, List.length_cons] at *
            omega

theorem takeWhile_nul_split (v rest : List Nat) (h : ∀ b ∈ v, b ≠ 0) :
    (v ++ 0 :: rest).takeWhile (fun b => b != 0) = v ∧
      (v ++ 0 :: rest).dropWhile (fun b => b != 0) = 0 :: rest := by
  induction v with
  | nil => simp [List.takeWhile, List.dropWhile]
  | cons a v ih =>
    have ha : a ≠ 0 := h a (List.mem_cons_self a v)
    have hv : ∀ b ∈ v, b ≠ 0 := fun b hb => h b (List.mem_cons_of_mem a hb)
    obtain ⟨ih1, ih2⟩ := ih hv
    have hab : (a != 0) = true := by simp [ha]
    constructor
    · simp only [List.cons_append, List.takeWhile_cons, hab, if_true, ih1]
    · simp only [List.cons_append, List.dropWhile_cons, hab, if_true, ih2]

/-- Effect of one decodable field on the accumulated message: `M`
overwrites it, `S` prefixes it, anything else leaves it unchanged. -/
def errorFieldStep (fieldType : Nat) (v : List Nat) (acc : List Char) : List Char :=
  match utf8Decode v with
  | some value =>
    if fieldType = 77 then value
    else if fieldType = 83 then value ++ ':' :: ' ' :: acc
    else acc
  | none => acc

theorem parseErrorFields_step (fieldType : Nat) (v rest : List Nat) (acc : List Char)
    (hft : fieldType ≠ 0) (hv : ∀ b ∈ v, b ≠ 0) :
    parseErrorFields (fieldType :: (v ++ 0 :: rest)) acc =
      parseErrorFields rest (errorFieldStep fieldType v acc) := by
  obtain ⟨ht, hd⟩ := takeWhile_nul_split v rest hv
  unfold parseErrorFields
  conv_lhs => simp only [parseErrorFieldsAux]
  rw [if_neg hft]
  simp only [ht, hd, List.drop_succ_cons, List.drop_zero]
  apply parseErrorFieldsAux_fuel_eq
  · simp only [List.length_cons, List.length_append]; omega
  · omega

theorem parseErrorFields_nul (rest : List Nat) (acc : List Char) :
    parseErrorFields (0 :: rest) acc = acc := rfl

/-- C3 counterexample — an ErrorResponse payload carrying the severity
field `S = "ERROR"` *before* the message field `M = "boom"` (the order
real PostgreSQL servers use) renders as `"boom"`, not as the claimed
`"ERROR: boom"`: the `M` assignment overwrites the accumulated string and
discards the severity prefix added earlier. -/
theorem parseErrorMessage_order_counterexample :
    parseErrorMessage [83, 69, 82, 82, 79, 82, 0, 77, 98, 111, 111, 109, 0, 0] = "boom" ∧
      "boom" ≠ "ERROR: boom" := by
  decide

/-- C3 (amended) — ErrorResponse rendering is order-sensitive: an `M`
field sets the message, and an `S` field prefixes whatever has been
accumulated so far with `"severity: "`.  Hence a payload with `M` before
`S` renders as `"{severity}: {message}"`, a payload with `S` before `M`
renders as the message alone (the severity is overwritten), and a payload
with only `M` renders as the message alone. -/
theorem parseErrorMessage_fields (sev msg : List Nat) (sevC msgC : List Char)
    (hsev0 : ∀ b ∈ sev, b ≠ 0) (hmsg0 : ∀ b ∈ msg, b ≠ 0)
    (hsev : utf8Decode sev = some sevC) (hmsg : utf8Decode msg = some msgC) :
    parseErrorMessage (77 :: (msg ++ 0 :: (83 :: (sev ++ 0 :: [0])))) =
        String.mk (sevC ++ ':' :: ' ' :: msgC) ∧
    parseErrorMessage (83 :: (sev ++ 0 :: (77 :: (msg ++ 0 :: [0])))) =
        String.mk msgC ∧
    parseErrorMessage (77 :: (msg ++ 0 :: [0])) = String.mk msgC := by
  have hM : ∀ acc, errorFieldStep 77 msg acc = msgC := by
    intro acc; unfold errorFieldStep; rw [hmsg]; simp
  have hS : ∀ acc, errorFieldStep 83 sev acc = sevC ++ ':' :: ' ' :: acc := by
    intro acc; unfold errorFieldStep; rw [hsev]; simp
  unfold parseErrorMessage
  refine ⟨?_, ?_, ?_⟩
  · rw [parseErrorFields_step 77 msg _ _ (by omega) hmsg0, hM,
      parseErrorFields_step 83 sev _ _ (by omega) hsev0, hS,
      parseErrorFields_nul]
  · rw [parseErrorFields_step 83 sev _ _ (by omega) hsev0, hS,
      parseErrorFields_step 77 msg _ _ (by omega) hmsg0, hM,
      parseErrorFields_nul]
  · rw [parseErrorFields_step 77 msg _ _ (by omega) hmsg0, hM,
      parseErrorFields_nul]

/-- Witness for the C3 rendering theorem at concrete field values. -/
theorem parseErrorMessage_fields_witness :
    parseErrorMessage (77 :: ([98, 111, 111, 109] ++ 0 ::
        (83 :: ([69, 82, 82, 79, 82] ++ 0 :: [0])))) =
      String.mk (['E', 'R', 'R', 'O', 'R'] ++ ':' :: ' ' :: ['b', 'o', 'o', 'm']) ∧
    parseErrorMessage (83 :: ([69, 82, 82, 79, 82] ++ 0 ::
        (77 :: ([98, 111, 111, 109] ++ 0 :: [0])))) =
      String.mk ['b', 'o', 'o', 'm'] ∧
    parseErrorMessage (77 :: ([98, 111, 111, 109] ++ 0 :: [0])) =
      String.mk ['b', 'o', 'o', 'm'] :=
  parseErrorMessage_fields [69, 82, 82, 79, 82] [98, 111, 111, 109]
    ['E', 'R', 'R', 'O', 'R'] ['b', 'o', 'o', 'm']
    (by decide) (by decide) (by decide) (by decide)

/-- Bitwise combination of the low `fuel` bits of two naturals, used to
give kernel-reducible 32-bit logical operations. -/
def bitCombine (f : Nat → Nat → Nat) : Nat → Nat → Nat → Nat
  | 0, _, _ => 0
  | fuel + 1, a, b => f (a % 2) (b % 2) + 2 * bitCombine f fuel (a / 2) (b / 2)

/-- 32-bit bitwise AND. -/
def and32 (a b : Nat) : Nat := bitCombine (fun x y => x * y) 32 a b

/-- 32-bit bitwise OR. -/
def or32 (a b : Nat) : Nat := bitCombine (fun x y => x + y - x * y) 32 a b

/-- 32-bit bitwise XOR. -/
def xor32 (a b : Nat) : Nat := bitCombine (fun x y => (x + y) % 2) 32 a b

/-- 32-bit bitwise NOT. -/
def not32 (a : Nat) : Nat := 2 ^ 32 - 1 - a % 2 ^ 32

/-- 32-bit wrapping addition. -/
def add32 (a b : Nat) : Nat := (a + b) % 2 ^ 32

/-- 32-bit left rotation by `c` (0 < c < 32) bits. -/
def rotl32 (a c : Nat) : Nat := a % 2 ^ 32 * 2 ^ c % 2 ^ 32 + a % 2 ^ 32 / 2 ^ (32 - c)

/-- Little-endian 8-byte encoding of the low 64 bits. -/
def le64 (n : Nat) : List Nat :=
  [n % 256, n / 2 ^ 8 % 256, n / 2 ^ 16 % 256, n / 2 ^ 24 % 256,
   n / 2 ^ 32 % 256, n / 2 ^ 40 % 256, n / 2 ^ 48 % 256, n / 2 ^ 56 % 256]

/-- Little-endian 4-byte encoding of the low 32 bits. -/
def le32 (n : Nat) : List Nat :=
  [n % 256, n / 2 ^ 8 % 256, n / 2 ^ 16 % 256, n / 2 ^ 24 % 256]

/-- Group a byte list into little-endian 32-bit words. -/
def bytesToWordsLE : List Nat → List Nat
  | b0 :: b1 :: b2 :: b3 :: rest =>
    (b0 + 256 * (b1 + 256 * (b2 + 256 * b3))) :: bytesToWordsLE rest
  | _ => []

/-- MD5 padding (RFC 1321): append 0x80, zero bytes up to 56 mod 64, then
the bit length of the message as a little-endian 64-bit integer. -/
def md5Pad (msg : List Nat) : List Nat :=
  msg ++ 128 :: List.replicate ((64 + 56 - (msg.length + 1) % 64) % 64) 0 ++
    le64 (msg.length * 8 % 2 ^ 64)

/-- The 64 MD5 sine-derived round constants (RFC 1321). -/
def md5K : List Nat :=
  [3614090360, 3905402710, 606105819, 3250441966, 4118548399, 1200080426,
   2821735955, 4249261313, 1770035416, 2336552879, 4294925233, 2304563134,
   1804603682, 4254626195, 2792965006, 1236535329, 4129170786, 3225465664,
   643717713, 3921069994, 3593408605, 38016083, 3634488961, 3889429448,
   568446438, 3275163606, 4107603335, 1163531501, 2850285829, 4243563512,
   1735328473, 2368359562, 4294588738, 2272392833, 1839030562, 4259657740,
   2763975236, 1272893353, 4139469664, 3200236656, 681279174, 3936430074,
   3572445317, 76029189, 3654602809, 3873151461, 530742520, 3299628645,
   4096336452, 1126891415, 2878612391, 4237533241, 1700485571, 2399980690,
   4293915773, 2240044497, 1873313359, 4264355552, 2734768916, 1309151649,
   4149444226, 3174756917, 718787259, 3951481745]

/-- The MD5 per-round left-rotation amounts (RFC 1321). -/
def md5S : List Nat :=
  [7, 12, 17, 22, 7, 12, 17, 22, 7, 12, 17, 22, 7, 12, 17, 22,
   5, 9, 14, 20, 5, 9, 14, 20, 5, 9, 14, 20, 5, 9, 14, 20,
   4, 11, 16, 23, 4, 11, 16, 23, 4, 11, 16, 23, 4, 11, 16, 23,
   6, 10, 15, 21, 6, 10, 15, 21, 6, 10, 15, 21, 6, 10, 15, 21]

/-- The MD5 nonlinear round function for round index `i`. -/
def md5F (i b c d : Nat) : Nat :=
  if i < 16 then or32 (and32 b c) (and32 (not32 b) d)
  else if i < 32 then or32 (and32 d b) (and32 (not32 d) c)
  else if i < 48 then xor32 b (xor32 c d)
  else xor32 c (or32 b (not32 d))

/-- The MD5 message-word schedule for round index `i`. -/
def md5G (i : Nat) : Nat :=
  if i < 16 then i
  else if i < 32 then (5 * i + 1) % 16
  else if i < 48 then (3 * i + 5) % 16
  else 7 * i % 16

/-- The 64 rounds of one MD5 chunk, driven by a countdown fuel with
round index `i = 64 - fuel`. -/
def md5Rounds (m : List Nat) : Nat → Nat → Nat × Nat × Nat × Nat → Nat × Nat × Nat × Nat
  | 0, _, st => st
  | fuel + 1, i, (a, b, c, d) =>
    let f := add32 (add32 (add32 (md5F i b c d) a) (md5K.getD i 0)) (m.getD (md5G i) 0)
    md5Rounds m fuel (i + 1) (d, add32 b (rotl32 f (md5S.getD i 0)), b, c)

/-- Process the padded message 64 bytes at a time, threading the four
MD5 state registers. -/
def md5Chunks : Nat → List Nat → Nat × Nat × Nat × Nat → Nat × Nat × Nat × Nat
  | 0, _, st => st
  | _ + 1, [], st => st
  | fuel + 1, bytes, (a0, b0, c0, d0) =>
    let m := bytesToWordsLE (bytes.take 64)
    let (a, b, c, d) := md5Rounds m 64 0 (a0, b0, c0, d0)
    md5Chunks fuel (bytes.drop 64) (add32 a0 a, add32 b0 b, add32 c0 c, add32 d0 d)

/-- The 16-byte MD5 digest of a byte sequence (RFC 1321), modelling the
`md5` crate used by src/conn.rs.  The fuel of `md5Chunks` only bounds the
number of 64-byte chunks and is never exhausted. -/
def md5 (msg : List Nat) : List Nat :=
  let padded := md5Pad msg
  let st := md5Chunks (padded.length / 64 + 1) padded
    (0x67452301, 0xefcdab89, 0x98badcfe, 0x10325476)
  le32 st.1 ++ le32 st.2.1 ++ le32 st.2.2.1 ++ le32 st.2.2.2

/-- ASCII code of a lowercase hexadecimal digit. -/
def hexDigitAscii (n : Nat) : Nat := if n < 10 then 48 + n else 87 + n

/-- Lowercase hexadecimal rendering of a byte list, as ASCII bytes,
modelling the `LowerHex` formatting of an `md5::Digest`. -/
def hexAsciiOfBytes (bs : List Nat) : List Nat :=
  bs.foldr (fun b acc => hexDigitAscii (b / 16) :: hexDigitAscii (b % 16) :: acc) []

/-- State of a `Connection`'s transport: the bytes still to be read from
the server and the bytes written to it so far. -/
structure ConnState where
  input : List Nat
  output : List Nat
deriving DecidableEq

/-- Embedding of `Connection::send_password_message` (src/conn.rs lines
159-166): append a NUL terminator to the password bytes and write them as
a type-`p` (112) frame in non-copy mode. -/
def sendPasswordMessage (password : List Nat) (st : ConnState) : ConnState :=
  { st with output := st.output ++ writeMessage 112 (password ++ [0]) false }

/-- Embedding of `Connection::compute_md5_password` (src/conn.rs lines
169-193), at the byte level: `"md5" || hex(md5(hex(md5(password || user))
|| salt))`, with lowercase hex. -/
def computeMd5PasswordBytes (password username salt : List Nat) : List Nat :=
  109 :: 100 :: 53 ::
    hexAsciiOfBytes (md5 (hexAsciiOfBytes (md5 (password ++ username)) ++ salt))

/-- The MD5 password digest as the `String` the Rust function returns
(the digest bytes are all ASCII). -/
def computeMd5Password (password username salt : List Nat) : String :=
  String.mk ((computeMd5PasswordBytes password username salt).map Char.ofNat)

/-- Embedding of `Connection::handle_authentication` (src/conn.rs lines
90-156).  Returns the result paired with the final transport state, so
that the frames written during authentication stay observable on error
paths (on a failed read the unread input is left untouched; the Rust
stream position is not observable there).  The fuel only bounds the
recursion depth: every recursive call first consumes a frame of at least
5 bytes from the input, so with fuel `input.length + 1` the fuel-zero
case is unreachable. -/
def handleAuthenticationAux (user password : List Nat) :
    Nat → ConnState → PRes Unit × ConnState
  | 0, st => (.panic, st)
  | fuel + 1, st =>
    match readMessage false st.input with
    | .err e => (.err e, st)
    | .panic => (.panic, st)
    | .unmodelled w => (.unmodelled w, st)
    | .ok (msg, rest) =>
      let st1 : ConnState := { st with input := rest }
      if msg.messageType = 82 then
        if msg.data.length < 4 then (.err .invalidAuthRequest, st1)
        else
          let authType := i32OfBits (fromBe32 (msg.data.getD 0 0) (msg.data.getD 1 0)
            (msg.data.getD 2 0) (msg.data.getD 3 0))
          if authType = 0 then (.ok (), st1)
          else if authType = 3 then
            handleAuthenticationAux user password fuel
              (sendPasswordMessage password st1)
          else if authType = 5 then
            if msg.data.length < 8 then (.err .invalidMd5AuthRequest, st1)
            else
              let salt := (msg.data.drop 4).take 4
              handleAuthenticationAux user password fuel
                (sendPasswordMessage (computeMd5PasswordBytes password user salt) st1)
          else
            (.err (.authentication ("Unsupported authentication method: " ++
              toString authType)), st1)
      else if msg.messageType = 69 then
        (.err (.authentication (parseErrorMessage msg.data)), st1)
      else
        (.err (.replicationProtocolViolation
          ("Unexpected message type during authentication: " ++
            String.mk [Char.ofNat msg.messageType])), st1)

/-- Embedding of `Connection::handle_authentication` with sufficient
fuel. -/
def handleAuthentication (user password : List Nat) (st : ConnState) :
    PRes Unit × ConnState :=
  handleAuthenticationAux user password (st.input.length + 1) st

theorem readMessage_consumes (copy : Bool) (s rest : List Nat) (msg : PgMessage)
    (h : readMessage copy s = .ok (msg, rest)) : rest.length < s.length := by
  match s with
  | [] => exact PRes.noConfusion h
  | [_] => exact PRes.noConfusion h
  | [_, _] => exact PRes.noConfusion h
  | [_, _, _] => exact PRes.noConfusion h
  | [_, _, _, _] => exact PRes.noConfusion h
  | t :: b0 :: b1 :: b2 :: b3 :: r =>
    simp only [readMessage] at h
    split at h
    · exact PRes.noConfusion h
    · split at h
      · split at h
        · cases h
          simp only [List.length_drop, List.length_cons]
          omega
        · split at h
          · cases h
            simp only [List.length_drop, List.length_cons]
            omega
          · cases h
            simp only [List.length_drop, List.length_cons]
            omega
      · exact PRes.noConfusion h

theorem handleAuthenticationAux_fuel_eq (user password : List Nat) (f1 : Nat) :
    ∀ f2 st, st.input.length < f1 → st.input.length < f2 →
      handleAuthenticationAux user password f1 st =
        handleAuthenticationAux user password f2 st := by
  induction f1 with
  | zero => intro f2 st h1 _; omega
  | succ k ih =>
    intro f2 st h1 h2
    cases f2 with
    | zero => omega
    | succ f2 =>
      simp only [handleAuthenticationAux]
      cases hr : readMessage false st.input with
      | err e => rfl
      | panic => rfl
      | unmodelled w => rfl
      | ok pr =>
        obtain ⟨msg, rest⟩ := pr
        dsimp only
        have hc := readMessage_consumes false st.input rest msg hr
        by_cases h82 : msg.messageType = 82
        · rw [if_pos h82, if_pos h82]
          by_cases hl4 : msg.data.length < 4
          · rw [if_pos hl4, if_pos hl4]
          · rw [if_neg hl4, if_neg hl4]
            by_cases h0 : i32OfBits (fromBe32 (msg.data.getD 0 0) (msg.data.getD 1 0)
                (msg.data.getD 2 0) (msg.data.getD 3 0)) = 0
            · rw [if_pos h0, if_pos h0]
            · rw [if_neg h0, if_neg h0]
              by_cases h3 : i32OfBits (fromBe32 (msg.data.getD 0 0) (msg.data.getD 1 0)
                  (msg.data.getD 2 0) (msg.data.getD 3 0)) = 3
              · rw [if_pos h3, if_pos h3]
                apply ih
                · simp only [sendPasswordMessage]
                  omega
                · simp only [sendPasswordMessage]
                  omega
              · rw [if_neg h3, if_neg h3]
                by_cases h5 : i32OfBits (fromBe32 (msg.data.getD 0 0) (msg.data.getD 1 0)
                    (msg.data.getD 2 0) (msg.data.getD 3 0)) = 5
                · rw [if_pos h5, if_pos h5]
                  by_cases hl8 : msg.data.length < 8
                  · rw [if_pos hl8, if_pos hl8]
                  · rw [if_neg hl8, if_neg hl8]
                    apply ih
                    · simp only [sendPasswordMessage]
                      omega
                    · simp only [sendPasswordMessage]
                      omega
                · rw [if_neg h5, if_neg h5]
        · rw [if_neg h82, if_neg h82]

theorem handleAuthenticationAux_md5_step (user password : List Nat) (fuel : Nat)
    (st : ConnState) (rest : List Nat) (s0 s1 s2 s3 : Nat) (extra : List Nat)
    (hr : readMessage false st.input =
      .ok (⟨82, 0 :: 0 :: 0 :: 5 :: s0 :: s1 :: s2 :: s3 :: extra⟩, rest)) :
    handleAuthenticationAux user password (fuel + 1) st =
      handleAuthenticationAux user password fuel
        (sendPasswordMessage (computeMd5PasswordBytes password user [s0, s1, s2, s3])
          { st with input := rest }) := by
  conv_lhs => rw [handleAuthenticationAux]
  rw [hr]
  dsimp only [List.getD, List.get?, Option.getD]
  norm_num [i32OfBits, fromBe32]
  rw [if_neg (by omega), if_neg (by omega)]

theorem handleAuthenticationAux_ok_step (user password : List Nat) (fuel : Nat)
    (st : ConnState) (rest : List Nat) (extra : List Nat)
    (hr : readMessage false st.input = .ok (⟨82, 0 :: 0 :: 0 :: 0 :: extra⟩, rest)) :
    handleAuthenticationAux user password (fuel + 1) st =
      (.ok (), { st with input := rest }) := by
  conv_lhs => rw [handleAuthenticationAux]
  rw [hr]
  dsimp only [List.getD, List.get?, Option.getD]
  norm_num [i32OfBits, fromBe32]

set_option maxRecDepth 100000 in
/-- C5 — MD5 authentication digest: in response to an auth-type-5 request
carrying a 4-byte salt, the authentication flow writes exactly one
password frame whose payload is the NUL-terminated digest
`"md5" || hex(md5(hex(md5(password || user)) || salt))` (each `md5` a
16-byte digest, `hex` lowercase); and for `(password = "secret",
user = "alice", salt = 0x01020304)` that digest is the concrete string
`"md598a0412b9c31436fc53776e863350083"`. -/
theorem computeMd5Password_spec (user password out rest : List Nat)
    (s0 s1 s2 s3 : Nat) :
    handleAuthentication user password
        ⟨writeMessage 82 [0, 0, 0, 5, s0, s1, s2, s3] false ++
          (writeMessage 82 [0, 0, 0, 0] false ++ rest), out⟩ =
      (.ok (), ⟨rest, out ++ writeMessage 112
        (computeMd5PasswordBytes password user [s0, s1, s2, s3] ++ [0]) false⟩) ∧
    computeMd5PasswordBytes password user [s0, s1, s2, s3] =
      109 :: 100 :: 53 :: hexAsciiOfBytes
        (md5 (hexAsciiOfBytes (md5 (password ++ user)) ++ [s0, s1, s2, s3])) ∧
    computeMd5Password [115, 101, 99, 114, 101, 116] [97, 108, 105, 99, 101]
        [1, 2, 3, 4] =
      "md598a0412b9c31436fc53776e863350083" := by
  refine ⟨?_, rfl, by decide⟩
  unfold handleAuthentication
  have hr1 := readMessage_of_writeMessage 82 [0, 0, 0, 5, s0, s1, s2, s3] false
    (writeMessage 82 [0, 0, 0, 0] false ++ rest) (by norm_num) (by norm_num)
  rw [handleAuthenticationAux_md5_step user password
    ((writeMessage 82 [0, 0, 0, 5, s0, s1, s2, s3] false ++
      (writeMessage 82 [0, 0, 0, 0] false ++ rest)).length)
    ⟨writeMessage 82 [0, 0, 0, 5, s0, s1, s2, s3] false ++
      (writeMessage 82 [0, 0, 0, 0] false ++ rest), out⟩
    (writeMessage 82 [0, 0, 0, 0] false ++ rest) s0 s1 s2 s3 [] hr1]
  rw [handleAuthenticationAux_fuel_eq user password _
    ((writeMessage 82 [0, 0, 0, 0] false ++ rest).length + 1)
    (sendPasswordMessage (computeMd5PasswordBytes password user [s0, s1, s2, s3])
      ⟨writeMessage 82 [0, 0, 0, 0] false ++ rest, out⟩)
    (by simp [sendPasswordMessage, writeMessage, toBe32])
    (by simp [sendPasswordMessage])]
  have hr2 := readMessage_of_writeMessage 82 [0, 0, 0, 0] false rest
    (by norm_num) (by norm_num)
  rw [handleAuthenticationAux_ok_step user password
    ((writeMessage 82 [0, 0, 0, 0] false ++ rest).length)
    (sendPasswordMessage (computeMd5PasswordBytes password user [s0, s1, s2, s3])
      ⟨writeMessage 82 [0, 0, 0, 0] false ++ rest, out⟩) rest [] hr2]
  rfl
theorem handleAuthenticationAux_unsupported_step (user password : List Nat) (fuel : Nat)
    (st : ConnState) (rest : List Nat) (d0 d1 d2 d3 : Nat) (extra : List Nat)
    (hr : readMessage false st.input = .ok (⟨82, d0 :: d1 :: d2 :: d3 :: extra⟩, rest))
    (hc0 : i32OfBits (fromBe32 d0 d1 d2 d3) ≠ 0)
    (hc3 : i32OfBits (fromBe32 d0 d1 d2 d3) ≠ 3)
    (hc5 : i32OfBits (fromBe32 d0 d1 d2 d3) ≠ 5) :
    handleAuthenticationAux user password (fuel + 1) st =
      (.err (.authentication ("Unsupported authentication method: " ++
        toString (i32OfBits (fromBe32 d0 d1 d2 d3)))), { st with input := rest }) := by
  conv_lhs => rw [handleAuthenticationAux]
  rw [hr]
  dsimp only
  simp only [List.getD_cons_zero, List.getD_cons_succ]
  rw [if_pos trivial, if_neg (by simp only [List.length_cons]; omega),
    if_neg hc0, if_neg hc3, if_neg hc5]

/-- C8 counterexample — a SCRAM (auth-code 10) authentication request
makes the flow fail with the error message "Unsupported authentication
method: 10", whose text starts with a capital U, not with the lowercase
string the claim quotes. -/
theorem handleAuthentication_scram_counterexample :
    handleAuthentication [117] [112] ⟨writeMessage 82 [0, 0, 0, 10] false, []⟩ =
      (.err (.authentication "Unsupported authentication method: 10"), ⟨[], []⟩) ∧
    ("Unsupported authentication method: 10" : String) ≠
      "unsupported authentication method: 10" := by
  decide

/-- C8 (amended) — Unsupported authentication method: for every
authentication request (type R) whose auth-type code is not 0, 3 or 5 —
in particular SCRAM code 10 — the authentication flow fails with
Authentication("Unsupported authentication method: N") where N is the
decimal rendering of the code, and no password message (indeed nothing at
all) is written to the stream for that code. -/
theorem handleAuthentication_unsupported (user password out rest : List Nat)
    (d0 d1 d2 d3 : Nat) (extra : List Nat)
    (hlen : extra.length + 8 < 2 ^ 31)
    (hc0 : i32OfBits (fromBe32 d0 d1 d2 d3) ≠ 0)
    (hc3 : i32OfBits (fromBe32 d0 d1 d2 d3) ≠ 3)
    (hc5 : i32OfBits (fromBe32 d0 d1 d2 d3) ≠ 5) :
    handleAuthentication user password
        ⟨writeMessage 82 (d0 :: d1 :: d2 :: d3 :: extra) false ++ rest, out⟩ =
      (.err (.authentication ("Unsupported authentication method: " ++
        toString (i32OfBits (fromBe32 d0 d1 d2 d3)))), ⟨rest, out⟩) := by
  have hr := readMessage_of_writeMessage 82 (d0 :: d1 :: d2 :: d3 :: extra) false rest
    (by norm_num) (by simp only [List.length_cons, if_neg Bool.false_ne_true]; omega)
  unfold handleAuthentication
  rw [handleAuthenticationAux_unsupported_step user password _
    ⟨writeMessage 82 (d0 :: d1 :: d2 :: d3 :: extra) false ++ rest, out⟩ rest
    d0 d1 d2 d3 extra hr hc0 hc3 hc5]

/-- Witness for the C8 unsupported-method theorem at the SCRAM code 10. -/
theorem handleAuthentication_unsupported_witness :
    handleAuthentication [117] [112]
        ⟨writeMessage 82 (0 :: 0 :: 0 :: 10 :: []) false ++ [7], [9]⟩ =
      (.err (.authentication ("Unsupported authentication method: " ++
        toString (i32OfBits (fromBe32 0 0 0 10)))), ⟨[7], [9]⟩) :=
  handleAuthentication_unsupported [117] [112] [9] [7] 0 0 0 10 []
    (by decide) (by decide) (by decide) (by decide)

/-- Days from a proleptic-Gregorian civil date to 1970-01-01 (Howard
Hinnant's days_from_civil algorithm, the arithmetic underlying jiff's
civil calendar). -/
def daysFromCivil (y : Int) (m d : Nat) : Int :=
  let yAdj : Int := if m ≤ 2 then y - 1 else y
  let era : Int := (if 0 ≤ yAdj then yAdj else yAdj - 399) / 400
  let yoe : Int := yAdj - era * 400
  let mp : Int := if 2 < m then (m : Int) - 3 else (m : Int) + 9
  let doy : Int := (153 * mp + 2) / 5 + d - 1
  let doe : Int := yoe * 365 + yoe / 4 - yoe / 100 + doy
  era * 146097 + doe - 719468

/-- Day offset of the PostgreSQL epoch 2000-01-01 from 1970-01-01. -/
def pgEpochDays : Int := daysFromCivil 2000 1 1

/-- Day offset (from the PostgreSQL epoch) of the smallest jiff civil
date, -9999-01-01. -/
def civilMinDays : Int := daysFromCivil (-9999) 1 1 - pgEpochDays

/-- Day offset (from the PostgreSQL epoch) of the largest jiff civil
date, 9999-12-31. -/
def civilMaxDays : Int := daysFromCivil 9999 12 31 - pgEpochDays

/-- jiff civil::Date, represented by its day offset from the PostgreSQL
epoch 2000-01-01 (the form the binary decoder works in). -/
structure CivilDate where
  daysFromPgEpoch : Int
deriving DecidableEq

/-- jiff civil::Time: hour, minute, second, nanosecond, as validated by
civil::Time::new. -/
structure CivilTime where
  hour : Int
  minute : Int
  second : Int
  nano : Int
deriving DecidableEq

/-- jiff civil::DateTime, represented by its nanosecond offset from the
civil instant 2000-01-01T00:00:00 (no time zone attached). -/
structure CivilTimestamp where
  nanosFromPgEpoch : Int
deriving DecidableEq

/-- A jiff time zone as used by this code: UTC (from in_tz("UTC")) or a
fixed offset (from strptime %z). -/
inductive TimeZoneRep where
  | utc
  | fixed (offsetSeconds : Int)
deriving DecidableEq

/-- jiff Zoned: an absolute instant (nanoseconds from 2000-01-01T00:00:00
UTC) paired with its time zone. -/
structure ZonedRep where
  timestampNanos : Int
  tz : TimeZoneRep
deriving DecidableEq

/-- Broken-down civil date-time components, as produced by strptime. -/
structure CivilDateTime where
  year : Int
  month : Nat
  day : Nat
  hour : Nat
  minute : Nat
  second : Nat
  nano : Nat
deriving DecidableEq

/-- The Zoned formed by reading civil components at a fixed UTC offset. -/
def zonedOfCivil (dt : CivilDateTime) (offsetSeconds : Int) : ZonedRep :=
  { timestampNanos := (daysFromCivil dt.year dt.month dt.day - pgEpochDays) *
      86400000000000 +
      ((dt.hour * 3600 + dt.minute * 60 + dt.second : Nat) : Int) * 1000000000 +
      (dt.nano : Int) - offsetSeconds * 1000000000,
    tz := .fixed offsetSeconds }

/-- Embedding of the Value enum of src/value.rs.  The Float and Double
variants carry the raw IEEE-754 bit pattern (the form the binary decoder
produces); IEEE arithmetic itself is outside the embedding. -/
inductive Value where
  | text (s : String)
  | integer (n : Int)
  | bigInt (n : Int)
  | float (bits : Nat)
  | double (bits : Nat)
  | boolean (b : Bool)
  | date (d : CivilDate)
  | time (t : CivilTime)
  | timestamp (ts : CivilTimestamp)
  | timestampTz (z : ZonedRep)
  | uuid (s : String)
  | json (s : String)
  | jsonb (s : String)
  | binary (bs : List Nat)
  | null
  | unknown (bs : List Nat) (oid : Nat)
deriving DecidableEq

/-- Digits-only decimal parse of a character list: requires at least one
character and all characters ASCII digits; value as an unbounded Nat. -/
def parseDigits (s : List Char) : Option Nat :=
  if s ≠ [] ∧ s.all (fun c => 48 ≤ c.toNat && c.toNat ≤ 57) then
    some (s.foldl (fun a c => a * 10 + (c.toNat - 48)) 0)
  else none

/-- Embedding of Rust str::parse for a signed bounded integer type with
value range [lo, hi]: an optional single leading + or - sign, then one or
more ASCII digits; a value outside the range is an overflow error
(equivalent to Rust's checked accumulation). -/
def parseIntRange (s : List Char) (lo hi : Int) : Option Int :=
  match s with
  | c :: rest =>
    if c = '+' then
      (parseDigits rest).bind fun n => if (n : Int) ≤ hi then some (n : Int) else none
    else if c = '-' then
      (parseDigits rest).bind fun n => if lo ≤ -(n : Int) then some (-(n : Int)) else none
    else
      (parseDigits (c :: rest)).bind fun n => if (n : Int) ≤ hi then some (n : Int) else none
  | [] => none

/-- Embedding of Rust str::parse::<u32>: an optional leading + (but no
minus sign), then digits, with the u32 range check. -/
def parseU32 (s : List Char) : Option Nat :=
  match s with
  | c :: rest =>
    if c = '+' then (parseDigits rest).bind fun n => if n < 2 ^ 32 then some n else none
    else (parseDigits (c :: rest)).bind fun n => if n < 2 ^ 32 then some n else none
  | [] => none

/-- Little-endian decimal digits, driven by a fuel that only bounds the
digit count (n itself always suffices, since the value shrinks by a
factor of ten per digit). -/
def natDigitsAux : Nat → Nat → List Nat
  | 0, _ => []
  | fuel + 1, n => if n = 0 then [] else n % 10 :: natDigitsAux fuel (n / 10)

/-- Little-endian decimal digits of a natural number. -/
def natDigitsLE (n : Nat) : List Nat := natDigitsAux n n

/-- Decimal digit characters of a natural number, most significant
first. -/
def natToChars (n : Nat) : List Char :=
  if n = 0 then ['0']
  else (natDigitsLE n).reverse.map (fun d => Char.ofNat (48 + d))

/-- Rust Display formatting of a signed integer. -/
def intToChars (n : Int) : List Char :=
  if n < 0 then '-' :: natToChars n.natAbs else natToChars n.toNat

/-- Value of an ASCII hexadecimal digit character (either case), as
accepted by hex::decode. -/
def hexDigitVal (c : Char) : Option Nat :=
  if 48 ≤ c.toNat ∧ c.toNat ≤ 57 then some (c.toNat - 48)
  else if 97 ≤ c.toNat ∧ c.toNat ≤ 102 then some (c.toNat - 87)
  else if 65 ≤ c.toNat ∧ c.toNat ≤ 70 then some (c.toNat - 55)
  else none

/-- Embedding of hex::decode over characters: pairs of hex digits; an odd
length or a non-hex character fails. -/
def hexDecodeChars : List Char → Option (List Nat)
  | [] => some []
  | c1 :: c2 :: rest =>
    (hexDigitVal c1).bind fun h =>
      (hexDigitVal c2).bind fun l =>
        (hexDecodeChars rest).map fun bs => (16 * h + l) :: bs
  | _ => none

/-- UTF-8 encoding of one character. -/
def utf8EncodeChar (c : Char) : List Nat :=
  let n := c.toNat
  if n < 128 then [n]
  else if n < 2048 then [192 + n / 64, 128 + n % 64]
  else if n < 65536 then [224 + n / 4096, 128 + n / 64 % 64, 128 + n % 64]
  else [240 + n / 262144, 128 + n / 4096 % 64, 128 + n / 64 % 64, 128 + n % 64]

/-- UTF-8 encoding of a character list (the bytes of the Rust &str). -/
def utf8Encode (s : List Char) : List Nat :=
  s.foldr (fun c acc => utf8EncodeChar c ++ acc) []

/-- Checked write of one byte into the fixed normalisation buffer:
out-of-bounds indexing is a Rust panic. -/
def bufSet (buf : List Nat) (i v : Nat) : Option (List Nat) :=
  if i < buf.length then some (buf.set i v) else none

/-- Checked copy_from_slice into buf[lo..lo+src.len]: a range beyond the
buffer is a Rust panic. -/
def bufCopy (buf : List Nat) (lo : Nat) (src : List Nat) : Option (List Nat) :=
  if lo + src.length ≤ buf.length then
    some (buf.take lo ++ src ++ buf.drop (lo + src.length))
  else none

/-- Byte index of the last 0x2B (+) or 0x2D (-) in the byte string, if
any: str::rfind at the byte level (both characters are single-byte ASCII
and so never occur inside a multi-byte UTF-8 sequence). -/
def rfindSign (bs : List Nat) : Option Nat :=
  ((bs.enum.filter (fun p => p.snd == 43 || p.snd == 45)).map Prod.fst).getLast?

/-- Byte length of the UTF-8 character that starts with this leading byte
(input is the bytes of a Rust &str, hence valid UTF-8). -/
def utf8CharLen (b : Nat) : Nat :=
  if b < 128 then 1 else if b < 224 then 2 else if b < 240 then 3 else 4

/-- Whether chars().nth(3) of a valid-UTF-8 byte string is the colon:
step over three characters and look at the fourth. -/
def fourthCharIsColon (bs : List Nat) : Bool :=
  let p1 := utf8CharLen (bs.getD 0 0)
  let p2 := p1 + utf8CharLen (bs.getD p1 0)
  let p3 := p2 + utf8CharLen (bs.getD p2 0)
  decide (p3 < bs.length) && bs.getD p3 0 == 58

/-- Whether a proleptic-Gregorian year is a leap year. -/
def isLeapYear (y : Int) : Bool :=
  (y % 4 == 0 && y % 100 != 0) || y % 400 == 0

/-- Number of days in a month of the given year. -/
def daysInMonth (y : Int) (m : Nat) : Nat :=
  if m = 2 then (if isLeapYear y then 29 else 28)
  else if m = 4 ∨ m = 6 ∨ m = 9 ∨ m = 11 then 30
  else 31

/-- Expect one specific byte at the head of the input. -/
def expectByte (b : Nat) (bs : List Nat) : Option (List Nat) :=
  match bs with
  | x :: rest => if x = b then some rest else none
  | [] => none

/-- Parse exactly two ASCII digits. -/
def parse2 (bs : List Nat) : Option (Nat × List Nat) :=
  match bs with
  | a :: b :: rest =>
    if 48 ≤ a ∧ a ≤ 57 ∧ 48 ≤ b ∧ b ≤ 57 then
      some ((a - 48) * 10 + (b - 48), rest)
    else none
  | _ => none

/-- Parse exactly four ASCII digits. -/
def parse4 (bs : List Nat) : Option (Nat × List Nat) :=
  (parse2 bs).bind fun p1 =>
    (parse2 p1.snd).map fun p2 => (p1.fst * 100 + p2.fst, p2.snd)

/-- Parse the optional %.f fraction: a dot followed by one to nine
digits, scaled to nanoseconds; absence parses as zero. -/
def parseFrac (bs : List Nat) : Option (Nat × List Nat) :=
  match bs with
  | 46 :: rest =>
    let ds := rest.takeWhile (fun b => 48 ≤ b && b ≤ 57)
    if 1 ≤ ds.length ∧ ds.length ≤ 9 then
      some (ds.foldl (fun a b => a * 10 + (b - 48)) 0 * 10 ^ (9 - ds.length),
        rest.drop ds.length)
    else none
  | _ => some (0, bs)

/-- Parse the %z offset: a sign and exactly four digits ±HHMM, within
jiff's offset range. -/
def parseOffset (bs : List Nat) : Option (Int × List Nat) :=
  match bs with
  | s :: rest =>
    if s = 43 ∨ s = 45 then
      (parse2 rest).bind fun p1 =>
        (parse2 p1.snd).bind fun p2 =>
          if p1.fst ≤ 25 ∧ p2.fst ≤ 59 then
            some ((if s = 45 then -((p1.fst * 3600 + p2.fst * 60 : Nat) : Int)
              else ((p1.fst * 3600 + p2.fst * 60 : Nat) : Int)), p2.snd)
          else none
    else none
  | [] => none

/-- Validity of broken-down civil components (jiff civil ranges). -/
def validCivil (y : Int) (mo dy hh mi ss : Nat) : Prop :=
  1 ≤ mo ∧ mo ≤ 12 ∧ 1 ≤ dy ∧ dy ≤ daysInMonth y mo ∧ hh ≤ 23 ∧ mi ≤ 59 ∧ ss ≤ 59

instance (y : Int) (mo dy hh mi ss : Nat) : Decidable (validCivil y mo dy hh mi ss) := by
  unfold validCivil
  infer_instance

/-- Strip an optional leading minus sign (the year sign of %Y). -/
def stripNeg (bs : List Nat) : Bool × List Nat :=
  match bs with
  | 45 :: rest => (true, rest)
  | _ => (false, bs)

/-- Parse the %Y-%m-%d date part: a possibly negative four-digit year and
two-digit month and day separated by dashes. -/
def parseDatePart (bs : List Nat) : Option (Int × Nat × Nat × List Nat) :=
  let sn := stripNeg bs
  (parse4 sn.snd).bind fun py =>
  (expectByte 45 py.snd).bind fun r1 =>
  (parse2 r1).bind fun pmo =>
  (expectByte 45 pmo.snd).bind fun r2 =>
  (parse2 r2).map fun pdy =>
  (if sn.fst then -(py.fst : Int) else (py.fst : Int), pmo.fst, pdy.fst, pdy.snd)

/-- Parse the %H:%M:%S time part: two-digit hour, minute and second
separated by colons. -/
def parseTimePart (bs : List Nat) : Option (Nat × Nat × Nat × List Nat) :=
  (parse2 bs).bind fun phh =>
  (expectByte 58 phh.snd).bind fun r1 =>
  (parse2 r1).bind fun pmi =>
  (expectByte 58 pmi.snd).bind fun r2 =>
  (parse2 r2).map fun pss =>
  (phh.fst, pmi.fst, pss.fst, pss.snd)

/-- Model of jiff Zoned::strptime with the fixed format
"%Y-%m-%d %H:%M:%S%.f%z", on the shapes the server emits: a possibly
negative four-digit year, two-digit month, day, hour, minute and second,
an optional fraction of one to nine digits, and a ±HHMM offset; civil
ranges are validated and the resulting Zoned pairs the denoted instant
with the fixed offset. -/
def strptimeZoned (bs : List Nat) : Option ZonedRep :=
  (parseDatePart bs).bind fun pd =>
  (expectByte 32 pd.snd.snd.snd).bind fun r1 =>
  (parseTimePart r1).bind fun pt =>
  (parseFrac pt.snd.snd.snd).bind fun pns =>
  (parseOffset pns.snd).bind fun poff =>
  if poff.snd = [] ∧
      validCivil pd.fst pd.snd.fst pd.snd.snd.fst pt.fst pt.snd.fst pt.snd.snd.fst then
    some (zonedOfCivil
      ⟨pd.fst, pd.snd.fst, pd.snd.snd.fst, pt.fst, pt.snd.fst, pt.snd.snd.fst, pns.fst⟩
      poff.fst)
  else none

/-- Lift a strptime outcome to the Rust result (failures become
Error::ParseDateTime). -/
def strptimeRes (bs : List Nat) : PRes ZonedRep :=
  match strptimeZoned bs with
  | some z => .ok z
  | none => .err .parseDateTime

/-- Final step of parse_timestamptz: view the first buf_pos bytes of the
normalisation buffer as a &str (an explicit UTF-8 check with map_err in
the Rust code) and hand them to strptime. -/
def tzNormFinish (normalized : List Nat) : PRes ZonedRep :=
  match utf8Decode normalized with
  | some _ => strptimeRes normalized
  | none => .err (.parseValue "Invalid UTF-8 in normalized timestamp")

/-- Embedding of parse_timestamptz (src/value.rs lines 409-474) over the
bytes of the input &str.  The '+'/'-' split position is always a char
boundary because both signs are ASCII.  Buffer writes go through the
checked bufSet/bufCopy: an out-of-bounds write is a Rust panic
(`.panic`). -/
def parseTimestamptz (text : List Nat) : PRes ZonedRep :=
  if text.length < 3 then strptimeRes text
  else
    match rfindSign text with
    | none => strptimeRes text
    | some tzStart =>
      let mainPart := text.take tzStart
      let tzPart := text.drop tzStart
      match bufCopy (List.replicate 256 0) 0 mainPart with
      | none => .panic
      | some buf1 =>
        let bufPos := mainPart.length
        if tzPart.length = 6 ∧ fourthCharIsColon tzPart then
          match bufSet buf1 bufPos (tzPart.getD 0 0) with
          | none => .panic
          | some b1 =>
            match bufSet b1 (bufPos + 1) (tzPart.getD 1 0) with
            | none => .panic
            | some b2 =>
              match bufSet b2 (bufPos + 2) (tzPart.getD 2 0) with
              | none => .panic
              | some b3 =>
                match bufSet b3 (bufPos + 3) (tzPart.getD 4 0) with
                | none => .panic
                | some b4 =>
                  match bufSet b4 (bufPos + 4) (tzPart.getD 5 0) with
                  | none => .panic
                  | some b5 => tzNormFinish (b5.take (bufPos + 5))
        else if tzPart.length = 3 then
          match bufSet buf1 bufPos (tzPart.getD 0 0) with
          | none => .panic
          | some b1 =>
            match bufSet b1 (bufPos + 1) (tzPart.getD 1 0) with
            | none => .panic
            | some b2 =>
              match bufSet b2 (bufPos + 2) (tzPart.getD 2 0) with
              | none => .panic
              | some b3 =>
                match bufSet b3 (bufPos + 3) 48 with
                | none => .panic
                | some b4 =>
                  match bufSet b4 (bufPos + 4) 48 with
                  | none => .panic
                  | some b5 => tzNormFinish (b5.take (bufPos + 5))
        else
          match bufCopy buf1 bufPos tzPart with
          | none => .panic
          | some b1 => tzNormFinish (b1.take (bufPos + tzPart.length))

/-- Embedding of parse_text_value (src/value.rs lines 92-172) over the
characters of the input &str.  The FLOAT4/FLOAT8/NUMERIC branches (Rust
IEEE-754 float parsing) and the DATE/TIMESTAMP/TIME branches (jiff civil
strptime with other formats) are outside the embedding and yield
`.unmodelled`; the OID match arms are disjoint constants, so the if-chain
order is immaterial. -/
def parseTextValue (s : List Char) (typeId : Nat) : PRes Value :=
  if typeId = 16 then
    if s = ['t'] then .ok (.boolean true)
    else if s = ['f'] then .ok (.boolean false)
    else .err (.parseValue ("Invalid boolean value: " ++ String.mk s))
  else if typeId = 21 ∨ typeId = 23 then
    match parseIntRange s (-(2 ^ 31)) (2 ^ 31 - 1) with
    | some n => .ok (.integer n)
    | none => .err .parseIntErr
  else if typeId = 20 then
    match parseIntRange s (-(2 ^ 63)) (2 ^ 63 - 1) with
    | some n => .ok (.bigInt n)
    | none => .err .parseIntErr
  else if typeId = 700 then .unmodelled "f32 text parsing"
  else if typeId = 701 then .unmodelled "f64 text parsing"
  else if typeId = 2950 then .ok (.uuid (String.mk s))
  else if typeId = 114 then .ok (.json (String.mk s))
  else if typeId = 3802 then .ok (.jsonb (String.mk s))
  else if typeId = 25 ∨ typeId = 1043 ∨ typeId = 18 ∨ typeId = 19 ∨ typeId = 1042 then
    .ok (.text (String.mk s))
  else if typeId = 17 then
    match s with
    | c1 :: c2 :: hexPart =>
      if c1 = '\\' ∧ c2 = 'x' then
        match hexDecodeChars hexPart with
        | some bytes => .ok (.binary bytes)
        | none => .err .hexDecode
      else .err (.parseValue ("Invalid bytea format: " ++ String.mk s))
    | _ => .err (.parseValue ("Invalid bytea format: " ++ String.mk s))
  else if typeId = 1082 then .unmodelled "jiff civil Date strptime"
  else if typeId = 1114 then .unmodelled "jiff civil DateTime strptime"
  else if typeId = 1184 then
    match parseTimestamptz (utf8Encode s) with
    | .ok z => .ok (.timestampTz z)
    | .err e => .err e
    | .panic => .panic
    | .unmodelled w => .unmodelled w
  else if typeId = 1083 then .unmodelled "jiff civil Time strptime"
  else if typeId = 1700 then .unmodelled "f64 text parsing (NUMERIC)"
  else if typeId = 26 then
    match parseU32 s with
    | some n => .ok (.integer (i32OfBits n))
    | none => .err .parseIntErr
  else .err (.parseValue ("Unknown type_id: " ++ toString typeId))

/-- Embedding of the Display impl for Value (src/value.rs lines 68-89),
as the character sequence written.  The Date/Time/Timestamp/TimestampTz
arms delegate to jiff's formatting and the Float/Double arms to Rust's
IEEE-754 float formatting, none of which is modelled: those arms are
`none`. -/
def displayValue : Value → Option (List Char)
  | .text s => some s.data
  | .integer n => some (intToChars n)
  | .bigInt n => some (intToChars n)
  | .float _ => none
  | .double _ => none
  | .boolean b => some (if b then "true".data else "false".data)
  | .date _ => none
  | .time _ => none
  | .timestamp _ => none
  | .timestampTz _ => none
  | .uuid s => some s.data
  | .json s => some s.data
  | .jsonb s => some s.data
  | .binary bs => some ("<binary data: ".data ++ natToChars bs.length ++ " bytes>".data)
  | .null => some "NULL".data
  | .unknown _ oid => some ("<unknown type: ".data ++ natToChars oid ++ [Char.ofNat 62])

example : parseTextValue ['4', '2'] 23 = .ok (.integer 42) := by decide

example : parseTextValue ['-', '7'] 20 = .ok (.bigInt (-7)) := by decide

example : displayValue (.integer (-42)) = some ['-', '4', '2'] := by decide

theorem natDigitsAux_val (fuel : Nat) : ∀ n, n ≤ fuel →
    (natDigitsAux fuel n).foldr (fun d a => a * 10 + d) 0 = n := by
  induction fuel with
  | zero => intro n h; interval_cases n; rfl
  | succ k ih =>
    intro n h
    by_cases h0 : n = 0
    · subst h0; simp [natDigitsAux]
    · simp only [natDigitsAux, if_neg h0, List.foldr_cons]
      rw [ih (n / 10) (by omega)]
      omega

theorem natDigitsAux_lt (fuel : Nat) : ∀ n d, d ∈ natDigitsAux fuel n → d < 10 := by
  induction fuel with
  | zero => intro n d hd; simp [natDigitsAux] at hd
  | succ k ih =>
    intro n d hd
    by_cases h0 : n = 0
    · subst h0; simp [natDigitsAux] at hd
    · simp only [natDigitsAux, if_neg h0, List.mem_cons] at hd
      rcases hd with h | h
      · omega
      · exact ih _ _ h

theorem natDigitsLE_ne_nil (n : Nat) (h : n ≠ 0) : natDigitsLE n ≠ [] := by
  unfold natDigitsLE
  cases n with
  | zero => omega
  | succ m => simp [natDigitsAux]

theorem toNat_charOfDigit (d : Nat) (h : d < 10) :
    (Char.ofNat (48 + d)).toNat = 48 + d := by
  interval_cases d <;> rfl

theorem parseFold_rev_map (L : List Nat) (hL : ∀ d ∈ L, d < 10) :
    (L.reverse.map (fun d => Char.ofNat (48 + d))).foldl
      (fun a c => a * 10 + (c.toNat - 48)) 0 = L.foldr (fun d a => a * 10 + d) 0 := by
  induction L with
  | nil => rfl
  | cons d L ih =>
    have hd : d < 10 := hL d (List.mem_cons_self d L)
    have hL2 : ∀ x ∈ L, x < 10 := fun x hx => hL x (List.mem_cons_of_mem d hx)
    simp only [List.reverse_cons, List.map_append, List.foldl_append, List.map_cons,
      List.map_nil, List.foldl_cons, List.foldl_nil, List.foldr_cons]
    rw [ih hL2, toNat_charOfDigit d hd]
    omega

theorem parseDigits_natToChars (n : Nat) : parseDigits (natToChars n) = some n := by
  by_cases h0 : n = 0
  · subst h0; decide
  · unfold natToChars
    rw [if_neg h0]
    have hlt : ∀ d ∈ natDigitsLE n, d < 10 := fun d hd => natDigitsAux_lt n n d hd
    have hne : (natDigitsLE n).reverse.map (fun d => Char.ofNat (48 + d)) ≠ [] := by
      simp only [ne_eq, List.map_eq_nil_iff, List.reverse_eq_nil_iff]
      exact natDigitsLE_ne_nil n h0
    have hall : ((natDigitsLE n).reverse.map (fun d => Char.ofNat (48 + d))).all
        (fun c => 48 ≤ c.toNat && c.toNat ≤ 57) = true := by
      rw [List.all_eq_true]
      intro c hc
      simp only [List.mem_map, List.mem_reverse] at hc
      obtain ⟨d, hd, rfl⟩ := hc
      have := hlt d hd
      rw [toNat_charOfDigit d this]
      simp; omega
    unfold parseDigits
    rw [if_pos ⟨hne, hall⟩, parseFold_rev_map _ hlt,
      show natDigitsLE n = natDigitsAux n n from rfl, natDigitsAux_val n n (le_refl n)]

theorem natToChars_head_digit (n : Nat) :
    ∃ c cs, natToChars n = c :: cs ∧ 48 ≤ c.toNat ∧ c.toNat ≤ 57 := by
  by_cases h0 : n = 0
  · subst h0; exact ⟨'0', [], rfl, by decide, by decide⟩
  · unfold natToChars
    rw [if_neg h0]
    cases hL : (natDigitsLE n).reverse.map (fun d => Char.ofNat (48 + d)) with
    | nil =>
      exact absurd hL (by
        simp only [ne_eq, List.map_eq_nil_iff, List.reverse_eq_nil_iff]
        exact natDigitsLE_ne_nil n h0)
    | cons c cs =>
      refine ⟨c, cs, rfl, ?_, ?_⟩ <;>
      · have hc : c ∈ (natDigitsLE n).reverse.map (fun d => Char.ofNat (48 + d)) := by
          rw [hL]; exact List.mem_cons_self c cs
        simp only [List.mem_map, List.mem_reverse] at hc
        obtain ⟨d, hd, rfl⟩ := hc
        have := natDigitsAux_lt n n d hd
        rw [toNat_charOfDigit d this]
        omega

theorem parseIntRange_intToChars (n lo hi : Int) (hlo : lo ≤ n) (hhi : n ≤ hi) :
    parseIntRange (intToChars n) lo hi = some n := by
  by_cases hneg : n < 0
  · unfold intToChars
    rw [if_pos hneg]
    show parseIntRange ('-' :: natToChars n.natAbs) lo hi = some n
    rw [show parseIntRange ('-' :: natToChars n.natAbs) lo hi =
      (parseDigits (natToChars n.natAbs)).bind
        (fun m => if lo ≤ -(m : Int) then some (-(m : Int)) else none) from rfl]
    rw [parseDigits_natToChars]
    show (if lo ≤ -((n.natAbs : Nat) : Int) then some (-((n.natAbs : Nat) : Int))
      else none) = some n
    rw [if_pos (by omega)]
    congr 1
    omega
  · unfold intToChars
    rw [if_neg hneg]
    obtain ⟨c, cs, hcons, h48, h57⟩ := natToChars_head_digit n.toNat
    rw [hcons]
    simp only [parseIntRange]
    rw [if_neg (by intro h; subst h; simp at h48),
      if_neg (by intro h; subst h; simp at h48)]
    rw [← hcons, parseDigits_natToChars]
    show (if ((n.toNat : Nat) : Int) ≤ hi then some ((n.toNat : Nat) : Int)
      else none) = some n
    rw [if_pos (by omega)]
    congr 1
    omega

theorem parseIntRange_bounds (s : List Char) (lo hi n : Int) (hlo : lo ≤ 0)
    (hhi : 0 ≤ hi) (h : parseIntRange s lo hi = some n) : lo ≤ n ∧ n ≤ hi := by
  cases s with
  | nil => simp [parseIntRange] at h
  | cons c rest =>
    simp only [parseIntRange] at h
    by_cases hplus : c = '+'
    · rw [if_pos hplus] at h
      cases hd : parseDigits rest with
      | none => rw [hd] at h; simp at h
      | some m =>
        rw [hd] at h
        have h2 : (if ((m : Nat) : Int) ≤ hi then some ((m : Nat) : Int) else none) =
          some n := h
        split at h2
        · cases h2; constructor <;> omega
        · simp at h2
    · rw [if_neg hplus] at h
      by_cases hminus : c = '-'
      · rw [if_pos hminus] at h
        cases hd : parseDigits rest with
        | none => rw [hd] at h; simp at h
        | some m =>
          rw [hd] at h
          have h2 : (if lo ≤ -((m : Nat) : Int) then some (-((m : Nat) : Int))
            else none) = some n := h
          split at h2
          · cases h2; constructor <;> omega
          · simp at h2
      · rw [if_neg hminus] at h
        cases hd : parseDigits (c :: rest) with
        | none => rw [hd] at h; simp at h
        | some m =>
          rw [hd] at h
          have h2 : (if ((m : Nat) : Int) ≤ hi then some ((m : Nat) : Int) else none) =
            some n := h
          split at h2
          · cases h2; constructor <;> omega
          · simp at h2

/-- C2 counterexample — the BOOL round-trip fails: parse_text_value
accepts only "t"/"f", but Display renders Boolean(true) as "true", which
parse_text_value with OID 16 rejects. -/
theorem parseTextValue_bool_counterexample :
    parseTextValue ['t'] 16 = .ok (.boolean true) ∧
    displayValue (.boolean true) = some ['t', 'r', 'u', 'e'] ∧
    parseTextValue ['t', 'r', 'u', 'e'] 16 =
      .err (.parseValue "Invalid boolean value: true") := by
  decide

/-- C2 (amended) — Text-decoding round-trip: for every non-null Value
produced by parse_text_value from some input text with an OID in
{INT2=21, INT4=23, INT8=20, UUID=2950, JSON=114, JSONB=3802, TEXT=25,
VARCHAR=1043}, rendering that Value with its Display formatting and
re-decoding the rendered string via parse_text_value with the same OID
yields exactly the original Value (on these variants the PartialEq impl
is structural equality).  BOOL=16 is excluded: Boolean values render as
"true"/"false", which the parser rejects.  FLOAT4/FLOAT8 (IEEE-754
parse/format) are outside the embedding. -/
theorem parseTextValue_roundtrip (s : List Char) (oid : Nat) (v : Value)
    (hoid : oid = 21 ∨ oid = 23 ∨ oid = 20 ∨ oid = 2950 ∨ oid = 114 ∨ oid = 3802 ∨
      oid = 25 ∨ oid = 1043)
    (hp : parseTextValue s oid = .ok v) :
    ∃ r, displayValue v = some r ∧ parseTextValue r oid = .ok v := by
  rcases hoid with h | h | h | h | h | h | h | h <;> subst h <;>
    norm_num only [parseTextValue] at hp ⊢ <;>
    simp only [true_or, or_true, false_or, or_false, if_true, if_false] at hp ⊢
  · split at hp
    · rename_i n hpi
      cases hp
      have hb := parseIntRange_bounds _ _ _ n (by norm_num) (by norm_num) hpi
      refine ⟨intToChars n, rfl, ?_⟩
      rw [parseIntRange_intToChars n _ _ (by omega) (by omega)]
    · simp at hp
  · split at hp
    · rename_i n hpi
      cases hp
      have hb := parseIntRange_bounds _ _ _ n (by norm_num) (by norm_num) hpi
      refine ⟨intToChars n, rfl, ?_⟩
      rw [parseIntRange_intToChars n _ _ (by omega) (by omega)]
    · simp at hp
  · split at hp
    · rename_i n hpi
      cases hp
      have hb := parseIntRange_bounds _ _ _ n (by norm_num) (by norm_num) hpi
      refine ⟨intToChars n, rfl, ?_⟩
      rw [parseIntRange_intToChars n _ _ (by omega) (by omega)]
    · simp at hp
  · cases hp; exact ⟨s, rfl, rfl⟩
  · cases hp; exact ⟨s, rfl, rfl⟩
  · cases hp; exact ⟨s, rfl, rfl⟩
  · cases hp; exact ⟨s, rfl, rfl⟩
  · cases hp; exact ⟨s, rfl, rfl⟩

/-- Witness for the C2 round-trip theorem at a concrete input. -/
theorem parseTextValue_roundtrip_witness :
    ∃ r, displayValue (.integer (-42)) = some r ∧ parseTextValue r 23 = .ok (.integer (-42)) :=
  parseTextValue_roundtrip ['-', '4', '2'] 23 (.integer (-42)) (by norm_num) (by decide)

/-- Big-endian decoding of 8 bytes at the bit-pattern level. -/
def fromBe64 (b0 b1 b2 b3 b4 b5 b6 b7 : Nat) : Nat :=
  ((((((b0 * 256 + b1) * 256 + b2) * 256 + b3) * 256 + b4) * 256 + b5) * 256 + b6) *
    256 + b7

/-- Reinterpret a 16-bit pattern as a signed i16 value. -/
def i16OfBits (n : Nat) : Int :=
  if n < 2 ^ 15 then (n : Int) else (n : Int) - 2 ^ 16

/-- Reinterpret a 64-bit pattern as a signed i64 value. -/
def i64OfBits (n : Nat) : Int :=
  if n < 2 ^ 63 then (n : Int) else (n : Int) - 2 ^ 64

/-- Reinterpret an 8-bit pattern as a signed i8 value. -/
def i8OfBits (n : Nat) : Int :=
  if n < 2 ^ 7 then (n : Int) else (n : Int) - 2 ^ 8

/-- The as u32 cast of an i64 value: the low 32 bits of the two's
complement pattern. -/
def u32OfI64 (v : Int) : Nat := (v % 2 ^ 32).toNat

/-- Smallest valid jiff civil DateTime microsecond offset from the
PostgreSQL epoch (the civil instant -9999-01-01T00:00:00). -/
def tsCivilMinMicros : Int := civilMinDays * 86400000000

/-- Largest valid jiff civil DateTime microsecond offset from the
PostgreSQL epoch (within 9999-12-31T23:59:59.999999). -/
def tsCivilMaxMicros : Int := (civilMaxDays + 1) * 86400000000 - 1

/-- Smallest valid jiff Timestamp, as nanoseconds from the PostgreSQL
epoch instant (the instant -9999-01-01T00:00:00Z). -/
def zMinNanos : Int := civilMinDays * 86400000000000

/-- Largest valid jiff Timestamp, as nanoseconds from the PostgreSQL
epoch instant (9999-12-31T23:59:59.999999999Z). -/
def zMaxNanos : Int := (civilMaxDays + 1) * 86400000000000 - 1

/-- Lowercase hex character pair of one byte ({:02x} formatting). -/
def hexCharsOfByte (b : Nat) : List Char :=
  [Char.ofNat (hexDigitAscii (b / 16)), Char.ofNat (hexDigitAscii (b % 16))]

/-- Canonical 8-4-4-4-12 UUID rendering of 16 bytes (the format! call in
the UUID branch of parse_binary_value). -/
def uuidChars (b0 b1 b2 b3 b4 b5 b6 b7 b8 b9 b10 b11 b12 b13 b14 b15 : Nat) :
    List Char :=
  hexCharsOfByte b0 ++ hexCharsOfByte b1 ++ hexCharsOfByte b2 ++ hexCharsOfByte b3 ++
    [Char.ofNat 45] ++ hexCharsOfByte b4 ++ hexCharsOfByte b5 ++ [Char.ofNat 45] ++
    hexCharsOfByte b6 ++ hexCharsOfByte b7 ++ [Char.ofNat 45] ++ hexCharsOfByte b8 ++
    hexCharsOfByte b9 ++ [Char.ofNat 45] ++ hexCharsOfByte b10 ++ hexCharsOfByte b11 ++
    hexCharsOfByte b12 ++ hexCharsOfByte b13 ++ hexCharsOfByte b14 ++ hexCharsOfByte b15

/-- Embedding of parse_binary_value (src/value.rs lines 175-406).  Rust
slice indexing under each length guard is modelled as: panic when the
slice is shorter than the guard promises, otherwise read the bytes (the
guards compare the len parameter, not the slice length, so a caller
passing mismatched arguments panics exactly as in Rust).  The match arms
are disjoint (OID, len) conditions, so the if-chain order is immaterial.
The jiff checked epoch arithmetic of the DATE/TIMESTAMP/TIMESTAMPTZ/TIME
branches is modelled by the civil range checks above; the i64 division
and remainder in the TIME branch truncate toward zero as in Rust. -/
def parseBinaryValue (data : List Nat) (typeId : Nat) (len : Int) : PRes Value :=
  if typeId = 16 ∧ len = 1 then
    if data.length < 1 then .panic
    else .ok (.boolean (data.getD 0 0 ≠ 0))
  else if typeId = 21 ∧ len = 2 then
    if data.length < 2 then .panic
    else .ok (.integer (i16OfBits (data.getD 0 0 * 256 + data.getD 1 0)))
  else if typeId = 23 ∧ len = 4 then
    if data.length < 4 then .panic
    else .ok (.integer (i32OfBits
      (fromBe32 (data.getD 0 0) (data.getD 1 0) (data.getD 2 0) (data.getD 3 0))))
  else if typeId = 20 ∧ len = 8 then
    if data.length < 8 then .panic
    else .ok (.bigInt (i64OfBits
      (fromBe64 (data.getD 0 0) (data.getD 1 0) (data.getD 2 0) (data.getD 3 0)
        (data.getD 4 0) (data.getD 5 0) (data.getD 6 0) (data.getD 7 0))))
  else if typeId = 700 ∧ len = 4 then
    if data.length < 4 then .panic
    else .ok (.float
      (fromBe32 (data.getD 0 0) (data.getD 1 0) (data.getD 2 0) (data.getD 3 0)))
  else if typeId = 701 ∧ len = 8 then
    if data.length < 8 then .panic
    else .ok (.double
      (fromBe64 (data.getD 0 0) (data.getD 1 0) (data.getD 2 0) (data.getD 3 0)
        (data.getD 4 0) (data.getD 5 0) (data.getD 6 0) (data.getD 7 0)))
  else if typeId = 17 then .ok (.binary data)
  else if typeId = 25 ∨ typeId = 1043 ∨ typeId = 18 ∨ typeId = 19 ∨ typeId = 1042 then
    match utf8Decode data with
    | some cs => .ok (.text (String.mk cs))
    | none => .ok (.binary data)
  else if typeId = 26 ∧ len = 4 then
    if data.length < 4 then .panic
    else .ok (.integer (i32OfBits
      (fromBe32 (data.getD 0 0) (data.getD 1 0) (data.getD 2 0) (data.getD 3 0))))
  else if typeId = 2950 ∧ len = 16 then
    if data.length < 16 then .panic
    else .ok (.uuid (String.mk (uuidChars (data.getD 0 0) (data.getD 1 0)
      (data.getD 2 0) (data.getD 3 0) (data.getD 4 0) (data.getD 5 0) (data.getD 6 0)
      (data.getD 7 0) (data.getD 8 0) (data.getD 9 0) (data.getD 10 0) (data.getD 11 0)
      (data.getD 12 0) (data.getD 13 0) (data.getD 14 0) (data.getD 15 0))))
  else if typeId = 114 ∨ typeId = 3802 then
    match utf8Decode data with
    | some cs =>
      if typeId = 114 then .ok (.json (String.mk cs)) else .ok (.jsonb (String.mk cs))
    | none => .ok (.binary data)
  else if typeId = 1082 ∧ len = 4 then
    if data.length < 4 then .panic
    else
      let days := i32OfBits
        (fromBe32 (data.getD 0 0) (data.getD 1 0) (data.getD 2 0) (data.getD 3 0))
      if civilMinDays ≤ days ∧ days ≤ civilMaxDays then .ok (.date ⟨days⟩)
      else .ok (.unknown data 1082)
  else if typeId = 1114 ∧ len = 8 then
    if data.length < 8 then .panic
    else
      let microsecs := i64OfBits
        (fromBe64 (data.getD 0 0) (data.getD 1 0) (data.getD 2 0) (data.getD 3 0)
          (data.getD 4 0) (data.getD 5 0) (data.getD 6 0) (data.getD 7 0))
      if tsCivilMinMicros ≤ microsecs ∧ microsecs ≤ tsCivilMaxMicros then
        .ok (.timestamp ⟨microsecs * 1000⟩)
      else .ok (.unknown data 1114)
  else if typeId = 1184 ∧ len = 8 then
    if data.length < 8 then .panic
    else
      let microsecs := i64OfBits
        (fromBe64 (data.getD 0 0) (data.getD 1 0) (data.getD 2 0) (data.getD 3 0)
          (data.getD 4 0) (data.getD 5 0) (data.getD 6 0) (data.getD 7 0))
      if zMinNanos ≤ microsecs * 1000 ∧ microsecs * 1000 ≤ zMaxNanos then
        .ok (.timestampTz ⟨microsecs * 1000, .utc⟩)
      else .ok (.unknown data 1184)
  else if typeId = 1083 ∧ len = 8 then
    if data.length < 8 then .panic
    else
      let microsecs := i64OfBits
        (fromBe64 (data.getD 0 0) (data.getD 1 0) (data.getD 2 0) (data.getD 3 0)
          (data.getD 4 0) (data.getD 5 0) (data.getD 6 0) (data.getD 7 0))
      let secs := u32OfI64 (microsecs.tdiv 1000000)
      let hours := i8OfBits (secs / 3600 % 256)
      let minutes := i8OfBits (secs % 3600 / 60 % 256)
      let seconds := i8OfBits (secs % 60 % 256)
      let nsecs := i32Wrap (microsecs.tmod 1000000 * 1000)
      if 0 ≤ hours ∧ hours ≤ 23 ∧ 0 ≤ minutes ∧ minutes ≤ 59 ∧ 0 ≤ seconds ∧
          seconds ≤ 59 ∧ 0 ≤ nsecs ∧ nsecs ≤ 999999999 then
        .ok (.time ⟨hours, minutes, seconds, nsecs⟩)
      else .ok (.unknown data 1083)
  else if typeId = 1700 then .ok (.unknown data 1700)
  else .ok (.unknown data typeId)

example : parseBinaryValue [0, 0, 1, 44] 23 4 = .ok (.integer 300) := by decide

example : parseBinaryValue [255, 255] 21 2 = .ok (.integer (-1)) := by decide

example :
    parseBinaryValue [1, 2, 3] 1700 3 = .ok (.unknown [1, 2, 3] 1700) := by decide

/-- C9 — Binary decoder totality: for every byte slice, type OID, and
length argument equal to the slice length (the caller invariant in
read_tuple_data, which passes len together with a slice of exactly len
bytes), parse_binary_value returns Ok of some Value — malformed or
unsupported payloads become Unknown or Binary values — and never returns
Err; hence the binary-decode-failure fallback branch in read_tuple_data
that substitutes Binary(raw) on error is unreachable. -/
theorem parseBinaryValue_total (data : List Nat) (typeId : Nat) (len : Int)
    (hlen : (data.length : Int) = len) :
    (parseBinaryValue data typeId len).isOk = true := by
  delta parseBinaryValue
  by_cases h1 : typeId = 16 ∧ len = 1
  · rw [if_pos h1, if_neg (show ¬data.length < 1 by omega)]
    try rfl
  · rw [if_neg h1]
    by_cases h2 : typeId = 21 ∧ len = 2
    · rw [if_pos h2, if_neg (show ¬data.length < 2 by omega)]
      try rfl
    · rw [if_neg h2]
      by_cases h3 : typeId = 23 ∧ len = 4
      · rw [if_pos h3, if_neg (show ¬data.length < 4 by omega)]
        try rfl
      · rw [if_neg h3]
        by_cases h4 : typeId = 20 ∧ len = 8
        · rw [if_pos h4, if_neg (show ¬data.length < 8 by omega)]
          try rfl
        · rw [if_neg h4]
          by_cases h5 : typeId = 700 ∧ len = 4
          · rw [if_pos h5, if_neg (show ¬data.length < 4 by omega)]
            try rfl
          · rw [if_neg h5]
            by_cases h6 : typeId = 701 ∧ len = 8
            · rw [if_pos h6, if_neg (show ¬data.length < 8 by omega)]
              try rfl
            · rw [if_neg h6]
              by_cases h7 : typeId = 17
              · rw [if_pos h7]
                rfl
              · rw [if_neg h7]
                by_cases h8 : typeId = 25 ∨ typeId = 1043 ∨ typeId = 18 ∨ typeId = 19 ∨ typeId = 1042
                · rw [if_pos h8]
                  cases utf8Decode data <;> rfl
                · rw [if_neg h8]
                  by_cases h9 : typeId = 26 ∧ len = 4
                  · rw [if_pos h9, if_neg (show ¬data.length < 4 by omega)]
                    try rfl
                  · rw [if_neg h9]
                    by_cases h10 : typeId = 2950 ∧ len = 16
                    · rw [if_pos h10, if_neg (show ¬data.length < 16 by omega)]
                      try rfl
                    · rw [if_neg h10]
                      by_cases h11 : typeId = 114 ∨ typeId = 3802
                      · rw [if_pos h11]
                        cases utf8Decode data with
                      | none => rfl
                      | some cs =>
                        rcases h11 with ht | ht <;> subst ht <;> rfl
                      · rw [if_neg h11]
                        by_cases h12 : typeId = 1082 ∧ len = 4
                        · rw [if_pos h12, if_neg (show ¬data.length < 4 by omega)]
                          dsimp only
                          split <;> rfl
                        · rw [if_neg h12]
                          by_cases h13 : typeId = 1114 ∧ len = 8
                          · rw [if_pos h13, if_neg (show ¬data.length < 8 by omega)]
                            dsimp only
                            split <;> rfl
                          · rw [if_neg h13]
                            by_cases h14 : typeId = 1184 ∧ len = 8
                            · rw [if_pos h14, if_neg (show ¬data.length < 8 by omega)]
                              dsimp only
                              split <;> rfl
                            · rw [if_neg h14]
                              by_cases h15 : typeId = 1083 ∧ len = 8
                              · rw [if_pos h15, if_neg (show ¬data.length < 8 by omega)]
                                dsimp only
                                split <;> rfl
                              · rw [if_neg h15]
                                by_cases h16 : typeId = 1700
                                · rw [if_pos h16]
                                  rfl
                                · rw [if_neg h16]
                                  rfl

/-- Witness for the C9 totality theorem at concrete inputs. -/
theorem parseBinaryValue_total_witness :
    (parseBinaryValue [0, 0, 1, 44] 23 4).isOk = true ∧
    (parseBinaryValue [1, 2, 3] 9999 3).isOk = true :=
  ⟨parseBinaryValue_total [0, 0, 1, 44] 23 4 (by decide),
    parseBinaryValue_total [1, 2, 3] 9999 3 (by decide)⟩

/-- True exactly on a normal return or an `Err` return: the function
terminated without panicking. -/
def PRes.isOkOrErr {α : Type} : PRes α → Bool
  | .ok _ => true
  | .err _ => true
  | _ => false

theorem rfindSign_lt (bs : List Nat) (i : Nat) (h : rfindSign bs = some i) :
    i < bs.length := by
  unfold rfindSign at h
  have h1 : i ∈ (bs.enum.filter fun p => p.snd == 43 || p.snd == 45).map Prod.fst := by
    obtain ⟨hne, hi⟩ := List.mem_getLast?_eq_getLast (Option.mem_def.mpr h)
    rw [hi]
    exact List.getLast_mem hne
  obtain ⟨p, hpf, hfst⟩ := List.mem_map.mp h1
  have hpe : p ∈ bs.enum := (List.mem_filter.mp hpf).1
  have hget := List.mem_enum_iff_get?.mp hpe
  obtain ⟨hlt, -⟩ := List.get?_eq_some.mp hget
  omega

theorem bufCopy_some (buf : List Nat) (lo : Nat) (src : List Nat)
    (h : lo + src.length ≤ buf.length) :
    ∃ b, bufCopy buf lo src = some b ∧ b.length = buf.length := by
  refine ⟨buf.take lo ++ src ++ buf.drop (lo + src.length), by unfold bufCopy; rw [if_pos h], ?_⟩
  simp only [List.length_append, List.length_take, List.length_drop]
  omega

theorem bufSet_some (buf : List Nat) (i v : Nat) (h : i < buf.length) :
    ∃ b, bufSet buf i v = some b ∧ b.length = buf.length := by
  refine ⟨buf.set i v, by unfold bufSet; rw [if_pos h], ?_⟩
  exact List.length_set buf i v

theorem strptimeRes_ok_or_err (bs : List Nat) : (strptimeRes bs).isOkOrErr = true := by
  unfold strptimeRes
  cases strptimeZoned bs <;> rfl

theorem tzNormFinish_ok_or_err (bs : List Nat) : (tzNormFinish bs).isOkOrErr = true := by
  unfold tzNormFinish
  cases utf8Decode bs with
  | some cs => exact strptimeRes_ok_or_err bs
  | none => rfl

/-- Helper for C10: the normalisation buffer writes of parse_timestamptz
stay in bounds for inputs of at most 251 bytes, so the function returns
Ok or Err and never panics. -/
theorem parseTimestamptz_isOkOrErr (text : List Nat) (hlen : text.length ≤ 251) :
    (parseTimestamptz text).isOkOrErr = true := by
  unfold parseTimestamptz
  split
  · exact strptimeRes_ok_or_err text
  · cases hrf : rfindSign text with
    | none => exact strptimeRes_ok_or_err text
    | some tzStart =>
      have htzlt := rfindSign_lt text tzStart hrf
      dsimp only
      obtain ⟨b1, hb1, hl1⟩ := bufCopy_some (List.replicate 256 0) 0 (text.take tzStart)
        (by simp only [List.length_replicate, List.length_take]; omega)
      rw [hb1]
      dsimp only
      rw [List.length_replicate] at hl1
      have hmlen : (text.take tzStart).length = tzStart := by
        rw [List.length_take]; omega
      split
      · obtain ⟨b2, hb2, hl2⟩ := bufSet_some b1 (text.take tzStart).length
          ((text.drop tzStart).getD 0 0) (by omega)
        rw [hb2]
        dsimp only
        obtain ⟨b3, hb3, hl3⟩ := bufSet_some b2 ((text.take tzStart).length + 1)
          ((text.drop tzStart).getD 1 0) (by omega)
        rw [hb3]
        dsimp only
        obtain ⟨b4, hb4, hl4⟩ := bufSet_some b3 ((text.take tzStart).length + 2)
          ((text.drop tzStart).getD 2 0) (by omega)
        rw [hb4]
        dsimp only
        obtain ⟨b5, hb5, hl5⟩ := bufSet_some b4 ((text.take tzStart).length + 3)
          ((text.drop tzStart).getD 4 0) (by omega)
        rw [hb5]
        dsimp only
        obtain ⟨b6, hb6, hl6⟩ := bufSet_some b5 ((text.take tzStart).length + 4)
          ((text.drop tzStart).getD 5 0) (by omega)
        rw [hb6]
        dsimp only
        exact tzNormFinish_ok_or_err _
      · split
        · obtain ⟨b2, hb2, hl2⟩ := bufSet_some b1 (text.take tzStart).length
            ((text.drop tzStart).getD 0 0) (by omega)
          rw [hb2]
          dsimp only
          obtain ⟨b3, hb3, hl3⟩ := bufSet_some b2 ((text.take tzStart).length + 1)
            ((text.drop tzStart).getD 1 0) (by omega)
          rw [hb3]
          dsimp only
          obtain ⟨b4, hb4, hl4⟩ := bufSet_some b3 ((text.take tzStart).length + 2)
            ((text.drop tzStart).getD 2 0) (by omega)
          rw [hb4]
          dsimp only
          obtain ⟨b5, hb5, hl5⟩ := bufSet_some b4 ((text.take tzStart).length + 3) 48
            (by omega)
          rw [hb5]
          dsimp only
          obtain ⟨b6, hb6, hl6⟩ := bufSet_some b5 ((text.take tzStart).length + 4) 48
            (by omega)
          rw [hb6]
          dsimp only
          exact tzNormFinish_ok_or_err _
        · obtain ⟨b2, hb2, hl2⟩ := bufCopy_some b1 (text.take tzStart).length
            (text.drop tzStart) (by rw [List.length_drop]; omega)
          rw [hb2]
          dsimp only
          exact tzNormFinish_ok_or_err _

/-- C10 — Bounded no-panic of the timestamptz normalisation: for every
input of byte length at most 251, parse_timestamptz (and hence
parse_text_value with OID 1184) terminates returning Ok or Err without
panicking — every write into the fixed 256-byte normalisation buffer
stays in bounds under that length precondition. -/
theorem parseTimestamptz_no_panic (text : List Nat) (s : List Char)
    (hlen : text.length ≤ 251) (hs : (utf8Encode s).length ≤ 251) :
    (parseTimestamptz text).isOkOrErr = true ∧
    (parseTextValue s 1184).isOkOrErr = true := by
  refine ⟨parseTimestamptz_isOkOrErr text hlen, ?_⟩
  norm_num only [parseTextValue]
  cases hp : parseTimestamptz (utf8Encode s) with
  | ok z => rfl
  | err e => rfl
  | panic =>
    have := parseTimestamptz_isOkOrErr (utf8Encode s) hs
    rw [hp] at this
    simp [PRes.isOkOrErr] at this
  | unmodelled w =>
    have := parseTimestamptz_isOkOrErr (utf8Encode s) hs
    rw [hp] at this
    simp [PRes.isOkOrErr] at this

theorem set_append_offset {α : Type} (s t : List α) (n : Nat) (x : α) :
    (s ++ t).set (s.length + n) x = s ++ t.set n x := by
  rw [List.set_append, if_neg (by omega), Nat.add_sub_cancel_left]

theorem set_append_len {α : Type} (s t : List α) (x : α) :
    (s ++ t).set s.length x = s ++ t.set 0 x := by
  have h := set_append_offset s t 0 x
  rwa [Nat.add_zero] at h

theorem bufSet_eq (buf : List Nat) (i v : Nat) (h : i < buf.length) :
    bufSet buf i v = some (buf.set i v) := by
  unfold bufSet
  rw [if_pos h]

/-- str::rfind of a sign on main ++ sign :: rest, with no sign in rest,
finds exactly the start of the suffix. -/
theorem rfindSign_append (main rest : List Nat) (sgn : Nat)
    (hs : sgn = 43 ∨ sgn = 45) (hrest : ∀ x ∈ rest, x ≠ 43 ∧ x ≠ 45) :
    rfindSign (main ++ sgn :: rest) = some main.length := by
  unfold rfindSign
  rw [List.enum_append, List.enumFrom_cons, List.filter_append, List.filter_cons]
  have hcond : ((main.length, sgn).snd == 43 || (main.length, sgn).snd == 45) = true := by
    rcases hs with rfl | rfl <;> rfl
  rw [if_pos hcond]
  have hrf0 : List.filter (fun p => p.snd == 43 || p.snd == 45)
      (List.enumFrom (main.length + 1) rest) = [] := by
    rw [List.filter_eq_nil_iff]
    intro p hp
    obtain ⟨i, x⟩ := p
    obtain ⟨-, -, hx⟩ := List.mem_enumFrom hp
    have hxm : x ∈ rest := by rw [hx]; exact List.getElem_mem _
    obtain ⟨h43, h45⟩ := hrest x hxm
    simp only [Bool.or_eq_true, beq_iff_eq]
    rintro (rfl | rfl)
    · exact h43 rfl
    · exact h45 rfl
  rw [hrf0, List.map_append, List.getLast?_append_of_ne_nil _ (by simp)]
  rfl

/-- Copying the main part into the zeroed 256-byte buffer. -/
theorem tzBuf0 (main : List Nat) (h : main.length ≤ 256) :
    bufCopy (List.replicate 256 0) 0 main =
      some (main ++ List.replicate (256 - main.length) 0) := by
  unfold bufCopy
  rw [if_pos (by simp only [List.length_replicate]; omega)]
  rw [List.take_zero, List.nil_append, Nat.zero_add, List.drop_replicate]

/-- The buffer after the main-part copy, with the next five zero cells
made explicit (enough room when the main part is at most 251 bytes). -/
theorem tzBuf_shape (main : List Nat) (h : main.length ≤ 251) :
    bufCopy (List.replicate 256 0) 0 main =
      some (main ++ 0 :: 0 :: 0 :: 0 :: 0 :: List.replicate (251 - main.length) 0) := by
  rw [tzBuf0 main (by omega)]
  have h5 : 256 - main.length = 5 + (251 - main.length) := by omega
  rw [h5, List.replicate_add]
  rfl

/-- A 3-byte suffix ±HH (sign byte followed by two non-sign bytes) is
rewritten to ±HH00 before strptime. -/
theorem parseTimestamptz_hh (main : List Nat) (sgn a b : Nat)
    (hs : sgn = 43 ∨ sgn = 45) (ha : a ≠ 43 ∧ a ≠ 45) (hb : b ≠ 43 ∧ b ≠ 45)
    (hlen : main.length ≤ 251) :
    parseTimestamptz (main ++ [sgn, a, b]) =
      tzNormFinish (main ++ [sgn, a, b, 48, 48]) := by
  have hrf : rfindSign (main ++ sgn :: [a, b]) = some main.length :=
    rfindSign_append main [a, b] sgn hs (by
      intro x hx
      simp only [List.mem_cons, List.not_mem_nil, or_false] at hx
      rcases hx with rfl | rfl
      · exact ha
      · exact hb)
  unfold parseTimestamptz
  rw [if_neg (by simp only [List.length_append, List.length_cons, List.length_nil]; omega)]
  rw [hrf]
  dsimp only
  rw [List.take_left main [sgn, a, b], List.drop_left main [sgn, a, b]]
  rw [tzBuf_shape main hlen]
  dsimp only
  rw [if_neg (by simp), if_pos (show ([sgn, a, b] : List Nat).length = 3 from rfl)]
  rw [bufSet_eq _ _ _ (by
    simp only [List.length_append, List.length_cons, List.length_replicate]; omega)]
  dsimp only
  rw [set_append_len]
  rw [bufSet_eq _ _ _ (by
    simp only [List.length_append, List.length_set, List.length_cons,
      List.length_replicate]; omega)]
  dsimp only
  rw [set_append_offset]
  rw [bufSet_eq _ _ _ (by
    simp only [List.length_append, List.length_set, List.length_cons,
      List.length_replicate]; omega)]
  dsimp only
  rw [set_append_offset]
  rw [bufSet_eq _ _ _ (by
    simp only [List.length_append, List.length_set, List.length_cons,
      List.length_replicate]; omega)]
  dsimp only
  rw [set_append_offset]
  rw [bufSet_eq _ _ _ (by
    simp only [List.length_append, List.length_set, List.length_cons,
      List.length_replicate]; omega)]
  dsimp only
  rw [set_append_offset]
  rw [List.take_append]
  rfl

/-- chars().nth(3) of a six-byte suffix ±HH:MM with ASCII hour digits is
the colon. -/
theorem fourthCharIsColon_hhmm (sgn h1 h2 m1 m2 : Nat)
    (hs : sgn = 43 ∨ sgn = 45) (h1lt : h1 < 128) (h2lt : h2 < 128) :
    fourthCharIsColon [sgn, h1, h2, 58, m1, m2] = true := by
  have hslt : sgn < 128 := by rcases hs with rfl | rfl <;> norm_num
  have es : utf8CharLen sgn = 1 := by unfold utf8CharLen; rw [if_pos hslt]
  have eh1 : utf8CharLen h1 = 1 := by unfold utf8CharLen; rw [if_pos h1lt]
  have eh2 : utf8CharLen h2 = 1 := by unfold utf8CharLen; rw [if_pos h2lt]
  unfold fourthCharIsColon
  dsimp only [List.getD_cons_zero]
  rw [es]
  have g1 : List.getD [sgn, h1, h2, 58, m1, m2] 1 0 = h1 := rfl
  rw [g1, eh1]
  have g2 : List.getD [sgn, h1, h2, 58, m1, m2] (1 + 1) 0 = h2 := rfl
  rw [g2, eh2]
  rfl

/-- A 6-byte suffix ±HH:MM (colon as fourth character) is rewritten to
±HHMM, the colon stripped, before strptime. -/
theorem parseTimestamptz_hhmm (main : List Nat) (sgn h1 h2 m1 m2 : Nat)
    (hs : sgn = 43 ∨ sgn = 45)
    (hh1 : h1 < 128 ∧ h1 ≠ 43 ∧ h1 ≠ 45) (hh2 : h2 < 128 ∧ h2 ≠ 43 ∧ h2 ≠ 45)
    (hm1 : m1 ≠ 43 ∧ m1 ≠ 45) (hm2 : m2 ≠ 43 ∧ m2 ≠ 45)
    (hlen : main.length ≤ 251) :
    parseTimestamptz (main ++ [sgn, h1, h2, 58, m1, m2]) =
      tzNormFinish (main ++ [sgn, h1, h2, m1, m2]) := by
  have hrf : rfindSign (main ++ sgn :: [h1, h2, 58, m1, m2]) = some main.length :=
    rfindSign_append main [h1, h2, 58, m1, m2] sgn hs (by
      intro x hx
      simp only [List.mem_cons, List.not_mem_nil, or_false] at hx
      rcases hx with rfl | rfl | rfl | rfl | rfl
      · exact hh1.2
      · exact hh2.2
      · exact ⟨by omega, by omega⟩
      · exact hm1
      · exact hm2)
  unfold parseTimestamptz
  rw [if_neg (by simp only [List.length_append, List.length_cons, List.length_nil]; omega)]
  rw [hrf]
  dsimp only
  rw [List.take_left main [sgn, h1, h2, 58, m1, m2],
    List.drop_left main [sgn, h1, h2, 58, m1, m2]]
  rw [tzBuf_shape main hlen]
  dsimp only
  rw [if_pos ⟨rfl, fourthCharIsColon_hhmm sgn h1 h2 m1 m2 hs hh1.1 hh2.1⟩]
  rw [bufSet_eq _ _ _ (by
    simp only [List.length_append, List.length_cons, List.length_replicate]; omega)]
  dsimp only
  rw [set_append_len]
  rw [bufSet_eq _ _ _ (by
    simp only [List.length_append, List.length_set, List.length_cons,
      List.length_replicate]; omega)]
  dsimp only
  rw [set_append_offset]
  rw [bufSet_eq _ _ _ (by
    simp only [List.length_append, List.length_set, List.length_cons,
      List.length_replicate]; omega)]
  dsimp only
  rw [set_append_offset]
  rw [bufSet_eq _ _ _ (by
    simp only [List.length_append, List.length_set, List.length_cons,
      List.length_replicate]; omega)]
  dsimp only
  rw [set_append_offset]
  rw [bufSet_eq _ _ _ (by
    simp only [List.length_append, List.length_set, List.length_cons,
      List.length_replicate]; omega)]
  dsimp only
  rw [set_append_offset]
  rw [List.take_append]
  rfl

/-- Any other suffix starting at the last sign is copied into the buffer
verbatim. -/
theorem parseTimestamptz_verbatim (main rest : List Nat) (sgn : Nat)
    (hs : sgn = 43 ∨ sgn = 45) (hrest : ∀ x ∈ rest, x ≠ 43 ∧ x ≠ 45)
    (hge : 3 ≤ main.length + (rest.length + 1))
    (hle : main.length + (rest.length + 1) ≤ 256)
    (hn6 : ¬((sgn :: rest).length = 6 ∧ fourthCharIsColon (sgn :: rest) = true))
    (hn3 : (sgn :: rest).length ≠ 3) :
    parseTimestamptz (main ++ sgn :: rest) = tzNormFinish (main ++ sgn :: rest) := by
  have hrf := rfindSign_append main rest sgn hs hrest
  unfold parseTimestamptz
  rw [if_neg (by simp only [List.length_append, List.length_cons]; omega)]
  rw [hrf]
  dsimp only
  rw [List.take_left main (sgn :: rest), List.drop_left main (sgn :: rest)]
  rw [tzBuf0 main (by omega)]
  dsimp only
  rw [if_neg hn6, if_neg hn3]
  unfold bufCopy
  rw [if_pos (by
    simp only [List.length_append, List.length_cons, List.length_replicate]; omega)]
  dsimp only
  rw [List.take_left main (List.replicate (256 - main.length) 0)]
  congr 1
  rw [← List.length_append main (sgn :: rest), List.take_left]

set_option maxRecDepth 100000 in
/-- Concrete ±HH sample: OID 1184 text "2023-12-25 14:30:45.123456+01"
decodes to the instant 2023-12-25T14:30:45.123456 at fixed offset +01:00. -/
theorem parseTextValue_tz_s1 :
    parseTextValue "2023-12-25 14:30:45.123456+01".data 1184 =
      .ok (.timestampTz (zonedOfCivil ⟨2023, 12, 25, 14, 30, 45, 123456000⟩ 3600)) := by
  decide

set_option maxRecDepth 100000 in
/-- Concrete ±HH:MM sample: OID 1184 text "2023-11-12 19:30:00.000000+05:30"
decodes to the instant 2023-11-12T19:30:00 at fixed offset +05:30. -/
theorem parseTextValue_tz_s2 :
    parseTextValue "2023-11-12 19:30:00.000000+05:30".data 1184 =
      .ok (.timestampTz (zonedOfCivil ⟨2023, 11, 12, 19, 30, 0, 0⟩ 19800)) := by
  decide

/-- C6 — Timestamptz text normalisation: parse_text_value with OID 1184
locates the last '+' or '-' in the input, rewrites a 3-character suffix
±HH to ±HH00 and a 6-character suffix ±HH:MM to ±HHMM (colon stripped),
copies any other suffix verbatim, and parses the result as
%Y-%m-%d %H:%M:%S[.fraction]±HHMM (tzNormFinish); in particular
"2023-12-25 14:30:45.123456+01" yields the TimestampTz
2023-12-25T14:30:45.123456+01:00 and "2023-11-12 19:30:00.000000+05:30"
yields the TimestampTz 2023-11-12T19:30:00+05:30. -/
theorem parseTimestamptz_normalisation :
    (∀ (main : List Nat) (sgn a b : Nat), sgn = 43 ∨ sgn = 45 →
      a ≠ 43 ∧ a ≠ 45 → b ≠ 43 ∧ b ≠ 45 → main.length ≤ 251 →
      parseTimestamptz (main ++ [sgn, a, b]) =
        tzNormFinish (main ++ [sgn, a, b, 48, 48])) ∧
    (∀ (main : List Nat) (sgn h1 h2 m1 m2 : Nat), sgn = 43 ∨ sgn = 45 →
      h1 < 128 ∧ h1 ≠ 43 ∧ h1 ≠ 45 → h2 < 128 ∧ h2 ≠ 43 ∧ h2 ≠ 45 →
      m1 ≠ 43 ∧ m1 ≠ 45 → m2 ≠ 43 ∧ m2 ≠ 45 → main.length ≤ 251 →
      parseTimestamptz (main ++ [sgn, h1, h2, 58, m1, m2]) =
        tzNormFinish (main ++ [sgn, h1, h2, m1, m2])) ∧
    (∀ (main rest : List Nat) (sgn : Nat), sgn = 43 ∨ sgn = 45 →
      (∀ x ∈ rest, x ≠ 43 ∧ x ≠ 45) →
      3 ≤ main.length + (rest.length + 1) → main.length + (rest.length + 1) ≤ 256 →
      ¬((sgn :: rest).length = 6 ∧ fourthCharIsColon (sgn :: rest) = true) →
      (sgn :: rest).length ≠ 3 →
      parseTimestamptz (main ++ sgn :: rest) = tzNormFinish (main ++ sgn :: rest)) ∧
    parseTextValue "2023-12-25 14:30:45.123456+01".data 1184 =
      .ok (.timestampTz (zonedOfCivil ⟨2023, 12, 25, 14, 30, 45, 123456000⟩ 3600)) ∧
    parseTextValue "2023-11-12 19:30:00.000000+05:30".data 1184 =
      .ok (.timestampTz (zonedOfCivil ⟨2023, 11, 12, 19, 30, 0, 0⟩ 19800)) :=
  ⟨fun main sgn a b hs ha hb hlen => parseTimestamptz_hh main sgn a b hs ha hb hlen,
   fun main sgn h1 h2 m1 m2 hs hh1 hh2 hm1 hm2 hlen =>
     parseTimestamptz_hhmm main sgn h1 h2 m1 m2 hs hh1 hh2 hm1 hm2 hlen,
   fun main rest sgn hs hrest hge hle hn6 hn3 =>
     parseTimestamptz_verbatim main rest sgn hs hrest hge hle hn6 hn3,
   parseTextValue_tz_s1, parseTextValue_tz_s2⟩

/-- Witness for the C6 normalisation theorem: the ±HH rewrite applied at
a concrete input, every hypothesis discharged by evaluation. -/
theorem parseTimestamptz_normalisation_witness :
    parseTimestamptz ([50, 48, 50, 51] ++ [43, 48, 49]) =
      tzNormFinish ([50, 48, 50, 51] ++ [43, 48, 49, 48, 48]) :=
  parseTimestamptz_normalisation.1 [50, 48, 50, 51] 43 48 49 (Or.inl rfl)
    (by decide) (by decide) (by decide)

/-- Witness for the C10 no-panic theorem at concrete inputs. -/
theorem parseTimestamptz_no_panic_witness :
    (parseTimestamptz (utf8Encode "2023-12-25 14:30:45.123456+01".data)).isOkOrErr =
      true ∧
    (parseTextValue "2023-11-12 19:30:00.000000+05:30".data 1184).isOkOrErr = true :=
  parseTimestamptz_no_panic (utf8Encode "2023-12-25 14:30:45.123456+01".data)
    "2023-11-12 19:30:00.000000+05:30".data (by decide) (by decide)

/-- Big-endian 8-byte encoding of the low 64 bits of a natural number,
modelling `u64::to_be_bytes` / `i64::to_be_bytes` on the bit pattern. -/
def toBe64 (n : Nat) : List Nat :=
  [n / 2 ^ 56 % 256, n / 2 ^ 48 % 256, n / 2 ^ 40 % 256, n / 2 ^ 32 % 256,
   n / 2 ^ 24 % 256, n / 2 ^ 16 % 256, n / 2 ^ 8 % 256, n % 256]

/-- Two's-complement 64-bit pattern of an `i64` value. -/
def u64OfI64 (v : Int) : Nat := (v % 2 ^ 64).toNat

/-- `read_u64_from_slice` (src/sub.rs lines 10-18): non-consuming
big-endian u64 at the front of a slice. -/
def readU64FromSlice (data : List Nat) : Except Err Nat :=
  if data.length < 8 then .error (.unexpectedEndOfData "u64")
  else .ok (fromBe64 (data.getD 0 0) (data.getD 1 0) (data.getD 2 0) (data.getD 3 0)
    (data.getD 4 0) (data.getD 5 0) (data.getD 6 0) (data.getD 7 0))

/-- `read_i64_from_slice` (src/sub.rs lines 20-28). -/
def readI64FromSlice (data : List Nat) : Except Err Int :=
  if data.length < 8 then .error (.unexpectedEndOfData "i64")
  else .ok (i64OfBits (fromBe64 (data.getD 0 0) (data.getD 1 0) (data.getD 2 0)
    (data.getD 3 0) (data.getD 4 0) (data.getD 5 0) (data.getD 6 0) (data.getD 7 0)))

/-- `parse_pg_error_message` (src/sub.rs lines 31-60) is byte-for-byte the
same routine as `Connection::parse_error_message`; it shares its
embedding. -/
def parsePgErrorMessage (data : List Nat) : String := parseErrorMessage data

/-- `Subscriber::read_u8` (src/sub.rs lines 546-553): one byte off the
front of the slice. -/
def readU8 (data : List Nat) : Except Err (Nat × List Nat) :=
  match data with
  | [] => .error (.unexpectedEndOfData "u8")
  | b :: rest => .ok (b, rest)

/-- `Subscriber::read_u16` (src/sub.rs lines 555-562): big-endian u16. -/
def readU16 (data : List Nat) : Except Err (Nat × List Nat) :=
  match data with
  | b0 :: b1 :: rest => .ok (b0 * 256 + b1, rest)
  | _ => .error (.unexpectedEndOfData "u16")

/-- `Subscriber::read_u32` (src/sub.rs lines 564-571): big-endian u32. -/
def readU32 (data : List Nat) : Except Err (Nat × List Nat) :=
  match data with
  | b0 :: b1 :: b2 :: b3 :: rest => .ok (fromBe32 b0 b1 b2 b3, rest)
  | _ => .error (.unexpectedEndOfData "u32")

/-- `Subscriber::read_i32` (src/sub.rs lines 573-580): big-endian i32. -/
def readI32 (data : List Nat) : Except Err (Int × List Nat) :=
  match data with
  | b0 :: b1 :: b2 :: b3 :: rest => .ok (i32OfBits (fromBe32 b0 b1 b2 b3), rest)
  | _ => .error (.unexpectedEndOfData "i32")

/-- `Subscriber::read_lsn` (src/sub.rs lines 582-591): big-endian u64. -/
def readLsn (data : List Nat) : Except Err (Nat × List Nat) :=
  match data with
  | b0 :: b1 :: b2 :: b3 :: b4 :: b5 :: b6 :: b7 :: rest =>
    .ok (fromBe64 b0 b1 b2 b3 b4 b5 b6 b7, rest)
  | _ => .error (.unexpectedEndOfData "LSN")

/-- `Subscriber::read_string` (src/sub.rs lines 593-616): scan to the
first NUL; no NUL before the end of the slice is an error.  The value is
kept as its bytes (the Rust String is their lossy UTF-8 decode, a pure
function of these bytes). -/
def readString (data : List Nat) : Except Err (List Nat × List Nat) :=
  let len := (data.takeWhile (fun b => b != 0)).length
  if len ≥ data.length then .error .unterminatedString
  else .ok (data.take len, data.drop (len + 1))

/-- Embedding of `Column` (src/sub.rs lines 132-141); the name is kept as
its bytes. -/
structure Column where
  name : List Nat
  typeId : Nat
  typeModifier : Int
  flags : Nat
deriving DecidableEq

/-- Embedding of `RelationInfo` (src/sub.rs lines 116-125); namespace and
name are kept as their bytes. -/
structure RelationInfo where
  ns : List Nat
  name : List Nat
  columns : List Column
  replicaIdentity : Nat
deriving DecidableEq

/-- Embedding of the WAL `Message` enum (src/sub.rs lines 67-110). -/
inductive Message where
  | begin (lsn : Nat)
  | relation (id : Nat) (ns : List Nat) (name : List Nat)
      (replicaIdentity : Nat) (columns : List Column)
  | insert (relationId : Nat) (tupleData : List (Option Value))
  | update (relationId : Nat) (oldTupleData : Option (List (Option Value)))
      (newTupleData : List (Option Value))
  | delete (relationId : Nat) (oldTupleData : Option (List (Option Value)))
  | commit (lsn : Nat)
  | unknown (b : Nat)
deriving DecidableEq

/-- `HashMap::get` on the relation cache, as an association list. -/
def cacheGet (cache : List (Nat × RelationInfo)) (k : Nat) : Option RelationInfo :=
  (cache.find? (fun p => p.fst == k)).map Prod.snd

/-- `HashMap::insert` on the relation cache: replace the existing binding
or add a new one. -/
def cacheInsert (cache : List (Nat × RelationInfo)) (k : Nat) (v : RelationInfo) :
    List (Nat × RelationInfo) :=
  match cache with
  | [] => [(k, v)]
  | p :: rest => if p.fst = k then (k, v) :: rest else p :: cacheInsert rest k v

/-- Column type OID lookup in `read_tuple_data` (src/sub.rs lines
640-651): the cached relation's column type when the index is in range,
else the TEXT fallback 25. -/
def tupleColumnTypeId (relInfo : Option RelationInfo) (i : Nat) : Nat :=
  match relInfo with
  | some rel =>
    if i < rel.columns.length then (rel.columns.getD i ⟨[], 25, 0, 0⟩).typeId else 25
  | none => 25

/-- The per-column loop of `read_tuple_data` (src/sub.rs lines 638-723),
structurally recursive on the number of remaining columns.  Text values
go through strict UTF-8 decoding and parse_text_value (errors
propagate); binary values go through parse_binary_value with the raw
bytes as fallback on error; `n`, `u` and unknown format bytes push a
NULL. -/
def readTupleColumns (relInfo : Option RelationInfo) :
    Nat → Nat → List Nat → List (Option Value) → PRes (List (Option Value) × List Nat)
  | 0, _, data, acc => .ok (acc.reverse, data)
  | count + 1, i, data, acc =>
    let typeId := tupleColumnTypeId relInfo i
    match readU8 data with
    | .error e => .err e
    | .ok (formatByte, d1) =>
      if formatByte = 116 then
        match readI32 d1 with
        | .error e => .err e
        | .ok (len, d2) =>
          if len < 0 then readTupleColumns relInfo count (i + 1) d2 (none :: acc)
          else if d2.length < len.toNat then .err (.unexpectedEndOfData "column value")
          else
            match utf8Decode (d2.take len.toNat) with
            | none => .err .utf8
            | some chars =>
              match parseTextValue chars typeId with
              | .ok v =>
                readTupleColumns relInfo count (i + 1) (d2.drop len.toNat) (some v :: acc)
              | .err e => .err e
              | .panic => .panic
              | .unmodelled w => .unmodelled w
      else if formatByte = 98 then
        match readI32 d1 with
        | .error e => .err e
        | .ok (len, d2) =>
          if len < 0 then readTupleColumns relInfo count (i + 1) d2 (none :: acc)
          else if d2.length < len.toNat then
            .err (.unexpectedEndOfData "binary column value")
          else
            match parseBinaryValue (d2.take len.toNat) typeId len with
            | .ok v =>
              readTupleColumns relInfo count (i + 1) (d2.drop len.toNat) (some v :: acc)
            | .err _ =>
              readTupleColumns relInfo count (i + 1) (d2.drop len.toNat)
                (some (.binary (d2.take len.toNat)) :: acc)
            | .panic => .panic
            | .unmodelled w => .unmodelled w
      else
        readTupleColumns relInfo count (i + 1) d1 (none :: acc)

/-- `Subscriber::read_tuple_data` (src/sub.rs lines 618-726): skip a
leading `N` flag, look the relation up in the cache, read the u16 column
count from the tuple data and loop over the columns. -/
def readTupleData (cache : List (Nat × RelationInfo)) (data : List Nat)
    (relationId : Nat) : PRes (List (Option Value) × List Nat) :=
  let data := if data ≠ [] ∧ data.headD 0 = 78 then data.tail else data
  let relInfo := cacheGet cache relationId
  match readU16 data with
  | .error e => .err e
  | .ok (columnCount, d1) => readTupleColumns relInfo columnCount 0 d1 []

/-- The column loop of the Relation branch of `parse_wal_data`
(src/sub.rs lines 510-527): flags byte, name string, type OID and type
modifier per column. -/
def readRelationColumns : Nat → List Nat → List Column →
    Except Err (List Column × List Nat)
  | 0, data, acc => .ok (acc.reverse, data)
  | count + 1, data, acc =>
    match readU8 data with
    | .error e => .error e
    | .ok (flags, d1) =>
      match readString d1 with
      | .error e => .error e
      | .ok (name, d2) =>
        match readU32 d2 with
        | .error e => .error e
        | .ok (typeId, d3) =>
          match readI32 d3 with
          | .error e => .error e
          | .ok (typeModifier, d4) =>
            readRelationColumns count d4 (⟨name, typeId, typeModifier, flags⟩ :: acc)

/-- `Subscriber::parse_wal_data` (src/sub.rs lines 405-542): dispatch on
the first payload byte (B, C, I, U, D, R, else Unknown). -/
def parseWalData (cache : List (Nat × RelationInfo)) (data : List Nat) :
    PRes Message :=
  match data with
  | [] => .err .emptyWalData
  | messageType :: d0 =>
    if messageType = 66 then
      match readLsn d0 with
      | .error e => .err e
      | .ok (lsn, _) => .ok (.begin lsn)
    else if messageType = 67 then
      match readLsn d0 with
      | .error e => .err e
      | .ok (lsn, _) => .ok (.commit lsn)
    else if messageType = 73 then
      match readU32 d0 with
      | .error e => .err e
      | .ok (relationId, d1) =>
        let d2 := if d1 ≠ [] ∧ d1.headD 0 = 78 then d1.tail else d1
        match readTupleData cache d2 relationId with
        | .ok (tupleData, _) => .ok (.insert relationId tupleData)
        | .err e => .err e
        | .panic => .panic
        | .unmodelled w => .unmodelled w
    else if messageType = 85 then
      match readU32 d0 with
      | .error e => .err e
      | .ok (relationId, d1) =>
        match readU8 d1 with
        | .error e => .err e
        | .ok (flag, d2) =>
          if flag = 79 then
            match readTupleData cache d2 relationId with
            | .ok (oldTuple, d3) =>
              match readTupleData cache d3 relationId with
              | .ok (newTuple, _) => .ok (.update relationId (some oldTuple) newTuple)
              | .err e => .err e
              | .panic => .panic
              | .unmodelled w => .unmodelled w
            | .err e => .err e
            | .panic => .panic
            | .unmodelled w => .unmodelled w
          else
            match readTupleData cache d2 relationId with
            | .ok (newTuple, _) => .ok (.update relationId none newTuple)
            | .err e => .err e
            | .panic => .panic
            | .unmodelled w => .unmodelled w
    else if messageType = 68 then
      match readU32 d0 with
      | .error e => .err e
      | .ok (relationId, d1) =>
        match readU8 d1 with
        | .error e => .err e
        | .ok (flag, d2) =>
          if flag = 79 then
            match readTupleData cache d2 relationId with
            | .ok (oldTuple, _) => .ok (.delete relationId (some oldTuple))
            | .err e => .err e
            | .panic => .panic
            | .unmodelled w => .unmodelled w
          else .ok (.delete relationId none)
    else if messageType = 82 then
      match readU32 d0 with
      | .error e => .err e
      | .ok (id, d1) =>
        match readString d1 with
        | .error e => .err e
        | .ok (ns, d2) =>
          match readString d2 with
          | .error e => .err e
          | .ok (name, d3) =>
            match readU8 d3 with
            | .error e => .err e
            | .ok (replicaIdentity, d4) =>
              match readU16 d4 with
              | .error e => .err e
              | .ok (columnCount, d5) =>
                match readRelationColumns columnCount d5 [] with
                | .error e => .err e
                | .ok (columns, _) => .ok (.relation id ns name replicaIdentity columns)
    else .ok (.unknown messageType)

/-- The Subscriber state visible to `next` (src/sub.rs lines 148-155):
the unread byte stream, the bytes written so far, the LSN tracker, the
relation cache, and the real-time inputs — whether
`last_status_update.elapsed()` has reached 10 s at each loop head
(`timer`), and the `jiff::Zoned::now()` readings (as microseconds since
2000-01-01) consumed by standby status updates (`clock`).  The slot and
publication names play no part in `next`. -/
structure SubState where
  input : List Nat
  output : List Nat
  lastReceivedLsn : Nat
  relationCache : List (Nat × RelationInfo)
  timer : List Bool
  clock : List Int
deriving DecidableEq

/-- `send_standby_status_update` (src/sub.rs lines 371-402): write an
`r` CopyData frame carrying the received LSN as the write, flush and
apply positions, the clock reading as an i64, and a zero
reply-requested flag. -/
def sendStandbyStatusUpdate (st : SubState) : SubState :=
  let pgTime := st.clock.headD 0
  let messageData := toBe64 st.lastReceivedLsn ++ toBe64 st.lastReceivedLsn ++
    toBe64 st.lastReceivedLsn ++ toBe64 (u64OfI64 pgTime) ++ [0]
  { st with
    output := st.output ++ writeMessage 114 messageData true,
    clock := st.clock.tail }

/-- Outcome of one pass through the loop body of `Subscriber::next`:
either loop again (the `continue` paths) or exit with the function's
return value. -/
inductive NextIter where
  | again (st : SubState)
  | halt (r : PRes Message) (st : SubState)

/-- The Subscriber state carried by a loop-body outcome. -/
def NextIter.state : NextIter → SubState
  | .again st => st
  | .halt _ st => st

/-- One iteration of the loop in `Subscriber::next` (src/sub.rs lines
264-367): an elapsed status timer sends a standby status update, then
one message is read in copy mode; `k` frames of at least 17 payload
bytes raise the LSN tracker to the frame's wal_end and answer a reply
request, `w` frames of more than 24 payload bytes raise the LSN tracker
and hand the remaining payload to parse_wal_data (caching Relation
messages), `E` frames and unknown types are skipped.  WouldBlock and
TimedOut I/O errors retry; the in-memory stream never produces them. -/
def subNextIter (st : SubState) : NextIter :=
  let fire := st.timer.headD false
  let st0 := { st with timer := st.timer.tail }
  let st1 := if fire then sendStandbyStatusUpdate st0 else st0
  match readMessage true st1.input with
  | .err e =>
    if e = .ioError .wouldBlock ∨ e = .ioError .timedOut then .again st1
    else .halt (.err e) st1
  | .panic => .halt .panic st1
  | .unmodelled w => .halt (.unmodelled w) st1
  | .ok (msg, rest) =>
    let st2 := { st1 with input := rest }
    if msg.messageType = 107 then
      if msg.data.length ≥ 17 then
        match readU64FromSlice (msg.data.take 8) with
        | .error e => .halt (.err e) st2
        | .ok walEnd =>
          let st3 := if walEnd > st2.lastReceivedLsn
            then { st2 with lastReceivedLsn := walEnd } else st2
          if msg.data.getD 16 0 ≠ 0 then .again (sendStandbyStatusUpdate st3)
          else .again st3
      else .again st2
    else if msg.messageType = 119 then
      if msg.data.length > 24 then
        match readU64FromSlice (msg.data.take 8) with
        | .error e => .halt (.err e) st2
        | .ok _walStart =>
          match readU64FromSlice ((msg.data.drop 8).take 8) with
          | .error e => .halt (.err e) st2
          | .ok walEnd =>
            match readI64FromSlice ((msg.data.drop 16).take 8) with
            | .error e => .halt (.err e) st2
            | .ok _serverTime =>
              let st3 := if walEnd > st2.lastReceivedLsn
                then { st2 with lastReceivedLsn := walEnd } else st2
              match parseWalData st3.relationCache (msg.data.drop 24) with
              | .err e => .halt (.err e) st3
              | .panic => .halt .panic st3
              | .unmodelled w => .halt (.unmodelled w) st3
              | .ok m =>
                match m with
                | .relation id ns name replicaIdentity columns =>
                  let info : RelationInfo := ⟨ns, name, columns, replicaIdentity⟩
                  .halt (.ok m)
                    { st3 with relationCache := cacheInsert st3.relationCache id info }
                | _ => .halt (.ok m) st3
      else .again st2
    else if msg.messageType = 69 then
      let _notice := parsePgErrorMessage msg.data
      .again st2
    else .again st2

/-- `Subscriber::next` (src/sub.rs lines 263-368): iterate the loop
body; the fuel bounds the number of iterations examined (the loop runs
forever on a stream of keepalives). -/
def subNext : Nat → SubState → PRes Message × SubState
  | 0, st => (.unmodelled "next loops beyond fuel", st)
  | fuel + 1, st =>
    match subNextIter st with
    | .again st2 => subNext fuel st2
    | .halt r st2 => (r, st2)

theorem sendStandbyStatusUpdate_lsn (st : SubState) :
    (sendStandbyStatusUpdate st).lastReceivedLsn = st.lastReceivedLsn := rfl

/-- One pass through the next loop body never lowers the LSN tracker:
the only writes are the conditional raises on k and w frames. -/
theorem subNextIter_lsn_mono (st : SubState) :
    st.lastReceivedLsn ≤ (subNextIter st).state.lastReceivedLsn := by
  unfold subNextIter
  dsimp only
  have h1 : (if st.timer.headD false
      then sendStandbyStatusUpdate { st with timer := st.timer.tail }
      else { st with timer := st.timer.tail }).lastReceivedLsn = st.lastReceivedLsn := by
    split <;> rfl
  generalize hst1 : (if st.timer.headD false
      then sendStandbyStatusUpdate { st with timer := st.timer.tail }
      else { st with timer := st.timer.tail }) = st1
  rw [hst1] at h1
  rw [← h1]
  cases hr : readMessage true st1.input with
  | err e =>
    dsimp only
    split <;> exact Nat.le_refl _
  | panic => exact Nat.le_refl _
  | unmodelled w => exact Nat.le_refl _
  | ok p =>
    obtain ⟨msg, rest⟩ := p
    dsimp only
    repeat' split
    all_goals simp only [NextIter.state, sendStandbyStatusUpdate] at *
    all_goals omega

/-- The LSN tracker is non-decreasing across a whole next call, whatever
the stream, cache, timer and clock contain. -/
theorem subNext_lsn_mono (fuel : Nat) : ∀ st : SubState,
    st.lastReceivedLsn ≤ (subNext fuel st).2.lastReceivedLsn := by
  induction fuel with
  | zero => intro st; exact Nat.le_refl _
  | succ n ih =>
    intro st
    have h1 := subNextIter_lsn_mono st
    unfold subNext
    cases hi : subNextIter st with
    | again st2 =>
      rw [hi] at h1
      dsimp only [NextIter.state] at h1
      dsimp only
      exact Nat.le_trans h1 (ih st2)
    | halt r st2 =>
      rw [hi] at h1
      dsimp only [NextIter.state] at h1
      dsimp only
      exact h1

/-- A keepalive frame (type k, at least 17 payload bytes) raises the LSN
tracker to the maximum of its current value and the frame's wal_end,
whether or not a reply is requested. -/
theorem subNextIter_keepalive (st : SubState) (msg : PgMessage) (rest tail : List Nat)
    (b0 b1 b2 b3 b4 b5 b6 b7 : Nat)
    (hr : readMessage true st.input = .ok (msg, rest))
    (ht : msg.messageType = 107)
    (hdata : msg.data = b0 :: b1 :: b2 :: b3 :: b4 :: b5 :: b6 :: b7 :: tail)
    (hlen : msg.data.length ≥ 17) :
    (subNextIter st).state.lastReceivedLsn =
      max st.lastReceivedLsn (fromBe64 b0 b1 b2 b3 b4 b5 b6 b7) := by
  unfold subNextIter
  dsimp only
  have hin : (if st.timer.headD false
      then sendStandbyStatusUpdate { st with timer := st.timer.tail }
      else { st with timer := st.timer.tail }).input = st.input := by
    split <;> rfl
  have hlsn1 : (if st.timer.headD false
      then sendStandbyStatusUpdate { st with timer := st.timer.tail }
      else { st with timer := st.timer.tail }).lastReceivedLsn = st.lastReceivedLsn := by
    split <;> rfl
  generalize hst1 : (if st.timer.headD false
      then sendStandbyStatusUpdate { st with timer := st.timer.tail }
      else { st with timer := st.timer.tail }) = st1
  rw [hst1] at hin hlsn1
  rw [hin, hr]
  dsimp only
  rw [if_pos ht, if_pos hlen, hdata]
  have hu : readU64FromSlice ((b0 :: b1 :: b2 :: b3 :: b4 :: b5 :: b6 :: b7 ::
      tail).take 8) = .ok (fromBe64 b0 b1 b2 b3 b4 b5 b6 b7) := rfl
  rw [hu]
  dsimp only
  repeat' split
  all_goals simp only [NextIter.state, sendStandbyStatusUpdate] at *
  all_goals omega

/-- A WAL-data frame (type w, more than 24 payload bytes) raises the LSN
tracker to the maximum of its current value and the frame's wal_end
(bytes 8..16 of the payload), whatever parse_wal_data returns. -/
theorem subNextIter_walData (st : SubState) (msg : PgMessage) (rest tail : List Nat)
    (a0 a1 a2 a3 a4 a5 a6 a7 b0 b1 b2 b3 b4 b5 b6 b7
      c0 c1 c2 c3 c4 c5 c6 c7 : Nat)
    (hr : readMessage true st.input = .ok (msg, rest))
    (ht : msg.messageType = 119)
    (hdata : msg.data = a0 :: a1 :: a2 :: a3 :: a4 :: a5 :: a6 :: a7 ::
      b0 :: b1 :: b2 :: b3 :: b4 :: b5 :: b6 :: b7 ::
      c0 :: c1 :: c2 :: c3 :: c4 :: c5 :: c6 :: c7 :: tail)
    (hlen : msg.data.length > 24) :
    (subNextIter st).state.lastReceivedLsn =
      max st.lastReceivedLsn (fromBe64 b0 b1 b2 b3 b4 b5 b6 b7) := by
  unfold subNextIter
  dsimp only
  have hin : (if st.timer.headD false
      then sendStandbyStatusUpdate { st with timer := st.timer.tail }
      else { st with timer := st.timer.tail }).input = st.input := by
    split <;> rfl
  have hlsn1 : (if st.timer.headD false
      then sendStandbyStatusUpdate { st with timer := st.timer.tail }
      else { st with timer := st.timer.tail }).lastReceivedLsn = st.lastReceivedLsn := by
    split <;> rfl
  generalize hst1 : (if st.timer.headD false
      then sendStandbyStatusUpdate { st with timer := st.timer.tail }
      else { st with timer := st.timer.tail }) = st1
  rw [hst1] at hin hlsn1
  rw [hin, hr]
  dsimp only
  rw [if_neg (by rw [ht]; decide), if_pos ht, if_pos hlen, hdata]
  have hu1 : readU64FromSlice ((a0 :: a1 :: a2 :: a3 :: a4 :: a5 :: a6 :: a7 ::
      b0 :: b1 :: b2 :: b3 :: b4 :: b5 :: b6 :: b7 ::
      c0 :: c1 :: c2 :: c3 :: c4 :: c5 :: c6 :: c7 :: tail).take 8) =
      .ok (fromBe64 a0 a1 a2 a3 a4 a5 a6 a7) := rfl
  have hu2 : readU64FromSlice (((a0 :: a1 :: a2 :: a3 :: a4 :: a5 :: a6 :: a7 ::
      b0 :: b1 :: b2 :: b3 :: b4 :: b5 :: b6 :: b7 ::
      c0 :: c1 :: c2 :: c3 :: c4 :: c5 :: c6 :: c7 :: tail).drop 8).take 8) =
      .ok (fromBe64 b0 b1 b2 b3 b4 b5 b6 b7) := rfl
  have hu3 : readI64FromSlice (((a0 :: a1 :: a2 :: a3 :: a4 :: a5 :: a6 :: a7 ::
      b0 :: b1 :: b2 :: b3 :: b4 :: b5 :: b6 :: b7 ::
      c0 :: c1 :: c2 :: c3 :: c4 :: c5 :: c6 :: c7 :: tail).drop 16).take 8) =
      .ok (i64OfBits (fromBe64 c0 c1 c2 c3 c4 c5 c6 c7)) := rfl
  rw [hu1]
  dsimp only
  rw [hu2]
  dsimp only
  rw [hu3]
  dsimp only
  repeat' split
  all_goals simp only [NextIter.state, sendStandbyStatusUpdate] at *
  all_goals omega

/-- C7 — LSN monotonicity: last_received_lsn is monotonically
non-decreasing across successive Subscriber::next calls — every
keepalive (k) and WAL-data (w) frame processed inside next updates
last_received_lsn to max(current value, frame's wal_end), and no
operation of the loop (status updates, relation caching, error skipping,
early error returns) ever decreases it. -/
theorem subscriber_lsn_monotone :
    (∀ (fuel : Nat) (st : SubState),
      st.lastReceivedLsn ≤ (subNext fuel st).2.lastReceivedLsn) ∧
    (∀ (st : SubState) (msg : PgMessage) (rest tail : List Nat)
        (b0 b1 b2 b3 b4 b5 b6 b7 : Nat),
      readMessage true st.input = .ok (msg, rest) → msg.messageType = 107 →
      msg.data = b0 :: b1 :: b2 :: b3 :: b4 :: b5 :: b6 :: b7 :: tail →
      msg.data.length ≥ 17 →
      (subNextIter st).state.lastReceivedLsn =
        max st.lastReceivedLsn (fromBe64 b0 b1 b2 b3 b4 b5 b6 b7)) ∧
    (∀ (st : SubState) (msg : PgMessage) (rest tail : List Nat)
        (a0 a1 a2 a3 a4 a5 a6 a7 b0 b1 b2 b3 b4 b5 b6 b7
          c0 c1 c2 c3 c4 c5 c6 c7 : Nat),
      readMessage true st.input = .ok (msg, rest) → msg.messageType = 119 →
      msg.data = a0 :: a1 :: a2 :: a3 :: a4 :: a5 :: a6 :: a7 ::
        b0 :: b1 :: b2 :: b3 :: b4 :: b5 :: b6 :: b7 ::
        c0 :: c1 :: c2 :: c3 :: c4 :: c5 :: c6 :: c7 :: tail →
      msg.data.length > 24 →
      (subNextIter st).state.lastReceivedLsn =
        max st.lastReceivedLsn (fromBe64 b0 b1 b2 b3 b4 b5 b6 b7)) :=
  ⟨subNext_lsn_mono,
   fun st msg rest tail b0 b1 b2 b3 b4 b5 b6 b7 hr ht hdata hlen =>
     subNextIter_keepalive st msg rest tail b0 b1 b2 b3 b4 b5 b6 b7 hr ht hdata hlen,
   fun st msg rest tail a0 a1 a2 a3 a4 a5 a6 a7 b0 b1 b2 b3 b4 b5 b6 b7
       c0 c1 c2 c3 c4 c5 c6 c7 hr ht hdata hlen =>
     subNextIter_walData st msg rest tail a0 a1 a2 a3 a4 a5 a6 a7
       b0 b1 b2 b3 b4 b5 b6 b7 c0 c1 c2 c3 c4 c5 c6 c7 hr ht hdata hlen⟩

/-- Witness for the C7 monotonicity theorem: a concrete keepalive frame
with wal_end 9 processed from a state at LSN 5, every hypothesis
discharged by evaluation. -/
theorem subscriber_lsn_monotone_witness :
    (subNextIter ⟨[100, 0, 0, 0, 22, 107, 0, 0, 0, 0, 0, 0, 0, 9,
        0, 0, 0, 0, 0, 0, 0, 0, 0], [], 5, [], [], []⟩).state.lastReceivedLsn =
      max 5 (fromBe64 0 0 0 0 0 0 0 9) :=
  subscriber_lsn_monotone.2.1
    ⟨[100, 0, 0, 0, 22, 107, 0, 0, 0, 0, 0, 0, 0, 9,
        0, 0, 0, 0, 0, 0, 0, 0, 0], [], 5, [], [], []⟩
    ⟨107, [0, 0, 0, 0, 0, 0, 0, 9, 0, 0, 0, 0, 0, 0, 0, 0, 0]⟩ []
    [0, 0, 0, 0, 0, 0, 0, 0, 0] 0 0 0 0 0 0 0 9
    (by decide) rfl rfl (by decide)

end Lolrepl
